import Mathlib

/-!
Verification development for the xian-contracting-linter repository.

The embedding below translates the two source files:
  * `xian_contracting_linter/linter.py`  — the `Linter` AST visitor (policy engine)
  * `xian_contracting_linter/main.py`    — the orchestration boundary
      (`parse_contracting_line`, `standardize_error_message`,
       `is_duplicate_error`, `deduplicate_errors`,
       `run_contracting_linter`, `lint_code`)

Python exceptions that the source can raise (AttributeError from missing
attributes, NameError from unbound locals, IndexError, KeyError from dict
subscription) are modelled with an `Except PyErr` result; a raised exception
propagates exactly as in Python, except where the source catches it.

Host-introspected data (`dir(builtins)`, `sys.stdlib_module_names` and
`sys.builtin_module_names`) is not program text; it is transcribed below for
CPython 3.11.  Only membership queries on the concrete names appearing in the
theorems depend on it.
-/

/-- Python exception kinds that the linter source can raise. -/
inductive PyErr : Type where
  | nameError (var : String)
  | attributeError
  | indexError
  | keyError (key : String)
deriving DecidableEq, Repr

/-- Decimal digit character for d < 10. -/
def digitChar (d : Nat) : Char := Char.ofNat (48 + d)

/-- Fuel-driven canonical decimal rendering (digits of `n`, fuel ≥ 1 suffices
for `n` because the digit count of `n` is at most `n + 1`). -/
def natReprAux : Nat → Nat → List Char
  | 0, _ => []
  | fuel + 1, n =>
    if n < 10 then [digitChar n]
    else natReprAux fuel (n / 10) ++ [digitChar (n % 10)]

/-- Canonical decimal rendering of a natural number, as Python's
`"{}".format(n)` renders a non-negative int. -/
def natRepr (n : Nat) : String := String.mk (natReprAux (n + 1) n)

/-- VIOLATION_TRIGGERS from linter.py (indices 0..18 map to rules S1..S19). -/
def VIOLATION_TRIGGERS : List String :=
  [ "S1- Illegal contracting syntax type used"
  , "S2- Illicit use of '_' before variable"
  , "S3- Illicit use of Nested imports"
  , "S4- ImportFrom compilation nodes not yet supported"
  , "S5- Contract not found in lib"
  , "S6- Illicit use of classes"
  , "S7- Illicit use of Async functions"
  , "S8- Invalid decorator used"
  , "S9- Multiple use of constructors detected"
  , "S10- Illicit use of multiple decorators"
  , "S11- Illicit keyword overloading for ORM assignments"
  , "S12- Multiple targets to ORM definition detected"
  , "S13- No valid contracting decorator found"
  , "S14- Illegal use of a builtin"
  , "S15- Reuse of ORM name definition in a function definition argument name"
  , "S16- Illegal argument annotation used"
  , "S17- No valid argument annotation found"
  , "S18- Illegal use of return annotation"
  , "S19- Illegal use of a nested function definition."
  ]

/-- Indexing into VIOLATION_TRIGGERS as the source does. -/
def trig (i : Nat) : String := VIOLATION_TRIGGERS.getD i ""

/-- RECURSION_LIMIT constant from linter.py line 6 (declared; never consulted
by any code in the repository). -/
def RECURSION_LIMIT : Nat := 1024

/-- ALLOWED_BUILTINS whitelist from linter.py. -/
def ALLOWED_BUILTINS : List String :=
  [ "Exception", "False", "None", "True", "abs", "all", "any", "ascii", "bin",
    "bool", "bytearray", "bytes", "chr", "dict", "divmod", "filter", "format",
    "frozenset", "hex", "int", "isinstance", "issubclass", "import", "len",
    "list", "map", "max", "min", "oct", "ord", "pow", "range", "reversed",
    "round", "set", "sorted", "str", "sum", "tuple", "zip" ]

/-- Host introspection `dir(builtins)` transcribed for CPython 3.11; the
linter computes `ILLEGAL_BUILTINS = set(dir(builtins)) - ALLOWED_BUILTINS`. -/
def dirBuiltins : List String :=
  [ "ArithmeticError", "AssertionError", "AttributeError", "BaseException",
    "BaseExceptionGroup", "BlockingIOError", "BrokenPipeError", "BufferError",
    "BytesWarning", "ChildProcessError", "ConnectionAbortedError",
    "ConnectionError", "ConnectionRefusedError", "ConnectionResetError",
    "DeprecationWarning", "EOFError", "Ellipsis", "EncodingWarning",
    "EnvironmentError", "Exception", "ExceptionGroup", "False",
    "FileExistsError", "FileNotFoundError", "FloatingPointError",
    "FutureWarning", "GeneratorExit", "IOError", "ImportError",
    "ImportWarning", "IndentationError", "IndexError", "InterruptedError",
    "IsADirectoryError", "KeyError", "KeyboardInterrupt", "LookupError",
    "MemoryError", "ModuleNotFoundError", "NameError", "None",
    "NotADirectoryError", "NotImplemented", "NotImplementedError", "OSError",
    "OverflowError", "PendingDeprecationWarning", "PermissionError",
    "ProcessLookupError", "RecursionError", "ReferenceError",
    "ResourceWarning", "RuntimeError", "RuntimeWarning",
    "StopAsyncIteration", "StopIteration", "SyntaxError", "SyntaxWarning",
    "SystemError", "SystemExit", "TabError", "TimeoutError", "True",
    "TypeError", "UnboundLocalError", "UnicodeDecodeError",
    "UnicodeEncodeError", "UnicodeError", "UnicodeTranslateError",
    "UnicodeWarning", "UserWarning", "ValueError", "Warning",
    "ZeroDivisionError", "__build_class__", "__debug__", "__doc__",
    "__import__", "__loader__", "__name__", "__package__", "__spec__",
    "abs", "aiter", "all", "anext", "any", "ascii", "bin", "bool",
    "breakpoint", "bytearray", "bytes", "callable", "chr", "classmethod",
    "compile", "complex", "copyright", "credits", "delattr", "dict", "dir",
    "divmod", "enumerate", "eval", "exec", "exit", "filter", "float",
    "format", "frozenset", "getattr", "globals", "hasattr", "hash", "help",
    "hex", "id", "input", "int", "isinstance", "issubclass", "iter", "len",
    "license", "list", "locals", "map", "max", "memoryview", "min", "next",
    "object", "oct", "open", "ord", "pow", "print", "property", "quit",
    "range", "repr", "reversed", "round", "set", "setattr", "slice",
    "sorted", "staticmethod", "str", "sum", "super", "tuple", "type",
    "vars", "zip" ]

/-- ILLEGAL_BUILTINS = set(dir(builtins)) - ALLOWED_BUILTINS. -/
def ILLEGAL_BUILTINS : List String :=
  dirBuiltins.filter (fun s => !(ALLOWED_BUILTINS.contains s))

/-- Host introspection `set(sys.stdlib_module_names) ∪
set(sys.builtin_module_names)` (the `self.builtins` attribute set in
`Linter.__init__`); transcribed representatively for CPython 3.11 — only the
membership of the concrete module names used in theorems below matters. -/
def stdlibAndBuiltinModuleNames : List String :=
  [ "abc", "argparse", "array", "ast", "asyncio", "atexit", "base64",
    "binascii", "bisect", "builtins", "bz2", "calendar", "cmath", "codecs",
    "collections", "contextlib", "copy", "csv", "ctypes", "dataclasses",
    "datetime", "decimal", "difflib", "dis", "email", "enum", "errno",
    "faulthandler", "fnmatch", "fractions", "functools", "gc", "getopt",
    "getpass", "gettext", "glob", "gzip", "hashlib", "heapq", "hmac",
    "html", "http", "imp", "importlib", "inspect", "io", "itertools",
    "json", "keyword", "locale", "logging", "lzma", "marshal", "math",
    "mimetypes", "multiprocessing", "operator", "os", "pathlib", "pickle",
    "platform", "posix", "pprint", "queue", "random", "re", "secrets",
    "select", "shutil", "signal", "site", "socket", "sqlite3", "ssl",
    "stat", "string", "struct", "subprocess", "sys", "tarfile", "tempfile",
    "textwrap", "threading", "time", "timeit", "token", "tokenize",
    "traceback", "types", "typing", "unicodedata", "unittest", "urllib",
    "uuid", "venv", "warnings", "weakref", "xml", "zipfile", "zlib" ]

/-- ORM_CLASS_NAMES from linter.py. -/
def ORM_CLASS_NAMES : List String :=
  ["Variable", "Hash", "ForeignVariable", "ForeignHash", "LogEvent"]

/-- VALID_DECORATORS from linter.py. -/
def VALID_DECORATORS : List String := ["export", "construct"]

/-- ALLOWED_ANNOTATION_TYPES from linter.py. -/
def ALLOWED_ANNOTATION_TYPES : List String :=
  [ "dict", "list", "str", "int", "float", "bool",
    "datetime.timedelta", "datetime.datetime", "Any" ]

mutual
/-- Shallow embedding of the Python AST node classes the linter inspects.
Linenos are the parser-attached 1-based line numbers.  `functionDef.args`
carries the `arg` children of the `arguments` wrapper node directly (the
wrapper contributes nothing: it is an allowed node kind with no checks).
Operator nodes inside `binOp` and expression contexts (`Load`/`Store`) are
omitted for the same reason.  Async constructs, `Try`, `With`, lambdas and
the other node classes never reached by the claims are not modelled. -/
inductive Node : Type where
  | module (body : NodeList)
  | functionDef (lineno : Nat) (fname : String) (args : NodeList)
      (body : NodeList) (decoratorList : NodeList) (returns : NodeOpt)
  | classDef (lineno : Nat) (cname : String) (body : NodeList)
  | assign (lineno : Nat) (targets : NodeList) (value : Node)
  | exprStmt (lineno : Nat) (value : Node)
  | importStmt (lineno : Nat) (names : NodeList)
  | importFrom (lineno : Nat) (moduleName : String) (names : NodeList)
  | ifStmt (lineno : Nat) (test : Node) (body : NodeList) (orelse : NodeList)
  | passStmt (lineno : Nat)
  | callExpr (lineno : Nat) (func : Node) (args : NodeList) (keywords : NodeList)
  | nameExpr (lineno : Nat) (id : String)
  | attributeExpr (lineno : Nat) (value : Node) (attr : String)
  | tupleExpr (lineno : Nat) (elts : NodeList)
  | binOp (lineno : Nat) (left : Node) (right : Node)
  | constantExpr (lineno : Nat)
  | argNode (lineno : Nat) (argName : String) (ann : NodeOpt)
  | keywordNode (kwarg : Option String) (value : Node)
  | aliasNode (aname : String) (asname : Option String)

/-- Lists of nodes (mutual with `Node` so that traversal is structural). -/
inductive NodeList : Type where
  | nil
  | cons (head : Node) (tail : NodeList)

/-- Optional node (mutual with `Node`). -/
inductive NodeOpt : Type where
  | none
  | some (n : Node)
end

/-- Build a `NodeList` from a `List Node`. -/
def nl : List Node → NodeList
  | [] => .nil
  | x :: xs => .cons x (nl xs)

/-- Length of a `NodeList` (for `len(node.decorator_list)`). -/
def nlLength : NodeList → Nat
  | .nil => 0
  | .cons _ t => 1 + nlLength t

/-- Last element of a `NodeList` (models the Python loop variable left bound
after iterating `arguments.args`). -/
def nlLast : NodeList → Option Node
  | .nil => Option.none
  | .cons h .nil => Option.some h
  | .cons _ (.cons h t) => nlLast (.cons h t)

/-- The `.id` attribute: only `ast.Name` nodes have it (`hasattr(d, "id")`). -/
def getIdOpt : Node → Option String
  | .nameExpr _ id => Option.some id
  | _ => Option.none

/-- Whether a node is an `ast.Tuple` (for `type(t)` / `isinstance` tests). -/
def isTupleNode : Node → Bool
  | .tupleExpr _ _ => true
  | _ => false

/-- Lineno attribute of a node (modules carry none in Python; they are never
interrogated for one by the linter, so 0 stands in). -/
def nodeLineno : Node → Nat
  | .module _ => 0
  | .functionDef k _ _ _ _ _ => k
  | .classDef k _ _ => k
  | .assign k _ _ => k
  | .exprStmt k _ => k
  | .importStmt k _ => k
  | .importFrom k _ _ => k
  | .ifStmt k _ _ _ => k
  | .passStmt k => k
  | .callExpr k _ _ _ => k
  | .nameExpr k _ => k
  | .attributeExpr k _ _ => k
  | .tupleExpr k _ => k
  | .binOp k _ _ => k
  | .constantExpr k => k
  | .argNode k _ _ => k
  | .keywordNode _ _ => 0
  | .aliasNode _ _ => 0

/-- Whether the node's class is in ILLEGAL_AST_TYPES (linter.py lines 50-69).
Of the modelled node kinds only `ClassDef` and `ImportFrom` are members. -/
def isIllegalAstType : Node → Bool
  | .classDef _ _ _ => true
  | .importFrom _ _ _ => true
  | _ => false

/-- Mutable state of one `Linter` run (`__init__` / `_reset` in linter.py).
Python's sets are modelled as duplicate-free lists in insertion order; the
claims proved below do not depend on set iteration order.  The
`_functions` list filled by `_collect_function_defs` is never consulted by
any check in the repository and is omitted. -/
structure LinterState : Type where
  violations : List String := []
  isOneExport : Bool := false
  isSuccess : Bool := true
  constructorVisited : Bool := false
  ormNames : List String := []
  visitedArgs : List (String × Nat) := []
  argTypes : List (Option String × Nat) := []
  retAnns : List (Option String × Nat) := []
deriving Repr, DecidableEq

/-- Python `set.add`: no-op when the element is present, else insert. -/
def setAdd [BEq α] (l : List α) (x : α) : List α :=
  if l.contains x then l else l ++ [x]

/-- Append a violation message and clear the success flag (every violation
site in linter.py does both). -/
def flag (st : LinterState) (s : String) : LinterState :=
  { st with violations := st.violations ++ [s], isSuccess := false }

/-- Python repr of the VALID_DECORATORS set as interpolated in the S8
message (set display order is a host artifact; one representative).  The
braces are escaped byte-for-byte. -/
def validDecoratorsRepr : String := "\x7b'export', 'construct'\x7d"

/-- Message of `generic_visit` for ILLEGAL_AST_TYPES members (rule S1). -/
def msgS1 (k : Nat) : String := "Line " ++ natRepr k ++ ": " ++ trig 0

/-- Message of `not_system_variable` (rule S2; note the space before the
colon after the line number: `"Line {} : "`). -/
def msgS2 (k : Nat) (v : String) : String :=
  "Line " ++ natRepr k ++ " : " ++ trig 1 ++ " : " ++ v

/-- Message of `no_nested_imports` (rule S3). -/
def msgS3 (k : Nat) : String := "Line " ++ natRepr k ++ ": " ++ trig 2

/-- Message of `visit_ImportFrom` (rule S4). -/
def msgS4 (k : Nat) : String := "Line " ++ natRepr k ++ ": " ++ trig 3

/-- Message of `visit_ClassDef` (rule S6). -/
def msgS6 (k : Nat) : String := "Line " ++ natRepr k ++ ": " ++ trig 5

/-- Message for an invalid decorator name (rule S8). -/
def msgS8 (k : Nat) : String :=
  "Line " ++ natRepr k ++ ": " ++ trig 7 ++ ": valid list: " ++ validDecoratorsRepr

/-- Message for a second `construct` decorator (rule S9). -/
def msgS9 (k : Nat) : String := "Line " ++ natRepr k ++ ": " ++ trig 8

/-- Message for multiple decorators (rule S10). -/
def msgS10 (k n : Nat) : String :=
  "Line " ++ natRepr k ++ ": " ++ trig 9 ++ ": Detected: " ++ natRepr n
    ++ " MAX limit: 1"

/-- Message for ORM keyword overloading (rule S11). -/
def msgS11 (k : Nat) : String := "Line " ++ natRepr k ++ ": " ++ trig 10

/-- Message for multiple ORM assignment targets (rule S12). -/
def msgS12 (k : Nat) : String := "Line " ++ natRepr k ++ ": " ++ trig 11

/-- Message for a missing export decorator (rule S13). -/
def msgS13 (k : Nat) : String := "Line " ++ natRepr k ++ ": " ++ trig 12

/-- Message for an illegal builtin reference (rule S14). -/
def msgS14 (k : Nat) : String := "Line " ++ natRepr k ++ ": " ++ trig 13

/-- Message for ORM-name reuse in arguments (rule S15). -/
def msgS15 (k : Nat) : String := "Line " ++ natRepr k ++ ": " ++ trig 14

/-- Message of `annotation_types` for a non-whitelisted spelling (rule S16;
space before the colon). -/
def msgS16 (k : Nat) (t : String) : String :=
  "Line " ++ natRepr k ++ " : " ++ trig 15 ++ " : " ++ t

/-- Message of `annotation_types` for a missing annotation (rule S17;
space before the colon). -/
def msgS17 (k : Nat) : String := "Line " ++ natRepr k ++ " : " ++ trig 16

/-- Message of `check_return_types` (rule S18; space before the colon). -/
def msgS18 (k : Nat) (t : String) : String :=
  "Line " ++ natRepr k ++ " : " ++ trig 17 ++ " : " ++ t

/-- Message for a nested function definition (rule S19). -/
def msgS19 (k : Nat) : String := "Line " ++ natRepr k ++ ": " ++ trig 18

/-- Python `v.startswith('_') or v.endswith('_')`, computed on the
character list (equivalent to the library string functions, but it
evaluates by kernel reduction). -/
def underscoredName (v : String) : Bool :=
  (match v.toList with
   | [] => false
   | c :: _ => c == '_') ||
  (match v.toList.getLast? with
   | Option.some c => c == '_'
   | Option.none => false)

/-- `not_system_variable` (linter.py 117-121). -/
def notSystemVariable (v : String) (k : Nat) (st : LinterState) : LinterState :=
  if underscoredName v then flag st (msgS2 k v) else st

/-- Leaf checks of `visit_Name` (linter.py 130-141): S2, the `rt` handle,
and illegal builtins with the `float` exemption. -/
def visitNameLeaf (k : Nat) (id : String) (st : LinterState) : LinterState :=
  let st1 := notSystemVariable id k st
  let st2 := if id == "rt" then flag st1 (msgS14 k) else st1
  if ILLEGAL_BUILTINS.contains id && id != "float" then flag st2 (msgS14 k)
  else st2

/-- Leaf checks of `visit_Attribute` (linter.py 146-151). -/
def visitAttrLeaf (k : Nat) (attr : String) (st : LinterState) : LinterState :=
  let st1 := notSystemVariable attr k st
  if attr == "rt" then flag st1 (msgS14 k) else st1

/-- Loop body of `visit_Import` (linter.py 155-161): each alias name found
in the host module catalog is flagged S14.  `n.name` on a non-alias child
would raise AttributeError, as in Python. -/
def importNamesCheck (k : Nat) : NodeList → LinterState → Except PyErr LinterState
  | .nil, st => .ok st
  | .cons (.aliasNode an _) t, st =>
      importNamesCheck k t
        (if stdlibAndBuiltinModuleNames.contains an then flag st (msgS14 k) else st)
  | .cons _ _, _ => .error .attributeError

/-- `no_nested_imports` (linter.py 123-128): scan the direct statement list
for Import/ImportFrom nodes, flagging S3 at the scanned node's line. -/
def noNestedImports (k : Nat) : NodeList → LinterState → LinterState
  | .nil, st => st
  | .cons (.importStmt _ _) t, st => noNestedImports k t (flag st (msgS3 k))
  | .cons (.importFrom _ _ _) t, st => noNestedImports k t (flag st (msgS3 k))
  | .cons _ t, st => noNestedImports k t st

/-- Closure scan of `visit_FunctionDef` (linter.py 252-259): a direct
FunctionDef child of the body is flagged S19. -/
def closuresCheck (k : Nat) : NodeList → LinterState → LinterState
  | .nil, st => st
  | .cons (.functionDef _ _ _ _ _ _) t, st => closuresCheck k t (flag st (msgS19 k))
  | .cons _ t, st => closuresCheck k t st

/-- Decorator-count check of `visit_FunctionDef` (linter.py 262-266). -/
def multiDecoratorCheck (k : Nat) (decs : NodeList) (st : LinterState) : LinterState :=
  if nlLength decs > 1 then flag st (msgS10 k (nlLength decs)) else st

/-- One iteration of the decorator loop of `visit_FunctionDef`
(linter.py 269-286) for a decorator that has an `id` attribute: validate
the name (S8), record the tree-wide export flag, and reject a second
`construct` (S9). -/
def decoratorStep (k : Nat) (did : String) (st : LinterState) : LinterState :=
  let st1 := if !VALID_DECORATORS.contains did then flag st (msgS8 k) else st
  let st2 := if did == "export" then { st1 with isOneExport := true } else st1
  if did == "construct" then
    let st3 := if st2.constructorVisited then flag st2 (msgS9 k) else st2
    { st3 with constructorVisited := true }
  else st2

/-- Decorator loop of `visit_FunctionDef` (linter.py 267-286): validates
names, records the export flag, and rejects a second `construct`.  Returns
the updated state and the function-local `export_decorator` flag. -/
def decoratorsCheck (k : Nat) : NodeList → LinterState → Bool → LinterState × Bool
  | .nil, st, exp => (st, exp)
  | .cons d t, st, exp =>
      match getIdOpt d with
      | Option.none => decoratorsCheck k t st exp
      | Option.some did =>
          decoratorsCheck k t (decoratorStep k did st)
            (if did == "export" then true else exp)

/-- The annotation spelling read in `visit_FunctionDef`:
`try: a.annotation.id  except AttributeError: a.annotation.value.id + '.' +
a.annotation.attr`.  Any shape other than a Name or an Attribute of a Name
raises AttributeError out of the except clause, as in Python (including a
missing annotation, where `None.id` and then `None.value` both fail). -/
def annSpelling : NodeOpt → Except PyErr String
  | .some (.nameExpr _ id) => .ok id
  | .some (.attributeExpr _ (.nameExpr _ vid) attr) => .ok (vid ++ "." ++ attr)
  | _ => .error .attributeError

/-- Argument loop of `visit_FunctionDef` (linter.py 289-300): records every
`(arg name, function lineno)` pair, and for exported functions records the
annotation spelling (or None).  `a.arg` on a non-arg child would raise
AttributeError. -/
def processArgs (k : Nat) (exp : Bool) : NodeList → LinterState → Except PyErr LinterState
  | .nil, st => .ok st
  | .cons (.argNode _ nm ann) t, st => do
      let st1 := { st with visitedArgs := setAdd st.visitedArgs (nm, k) }
      let st2 ←
        if exp then
          match ann with
          | .none => pure { st1 with argTypes := setAdd st1.argTypes (Option.none, k) }
          | a => do
              let s ← annSpelling a
              pure { st1 with argTypes := setAdd st1.argTypes (Option.some s, k) }
        else pure st1
      processArgs k exp t st2
  | .cons _ _, _ => .error .attributeError

/-- Return-annotation branch of `visit_FunctionDef` (linter.py 302-310).
When the function is exported and carries a return annotation, the code
re-reads `a.annotation` — the loop variable left over from the argument
loop — and adds that spelling to `arg_types`; with no arguments `a` is
unbound (NameError).  Only the no-return-annotation case ever feeds
`return_annotation`, and only with None. -/
def returnBranch (k : Nat) (exp : Bool) (args : NodeList) (ret : NodeOpt)
    (st : LinterState) : Except PyErr LinterState :=
  if exp then
    match ret with
    | .some _ =>
        match nlLast args with
        | Option.none => .error (.nameError "a")
        | Option.some (.argNode _ _ ann) => do
            let s ← annSpelling ann
            pure { st with argTypes := setAdd st.argTypes (Option.some s, k) }
        | Option.some _ => .error .attributeError
    | .none => .ok { st with retAnns := setAdd st.retAnns (Option.none, k) }
  else .ok st

/-- The `kwargs` scan of `visit_Assign` (linter.py 196-198): whether any
keyword of the call is named `contract` or `name`. -/
def kwHasContractOrName : NodeList → Except PyErr Bool
  | .nil => .ok false
  | .cons (.keywordNode kw _) t =>
      if kw == Option.some "contract" || kw == Option.some "name" then .ok true
      else kwHasContractOrName t
  | .cons _ _ => .error .attributeError

/-- Whether some element of a NodeList is a Tuple node
(`ast.Tuple in [type(t) for t in node.targets]`). -/
def nlAnyTuple : NodeList → Bool
  | .nil => false
  | .cons h t => isTupleNode h || nlAnyTuple t

/-- Leaf logic of `visit_Assign` (linter.py 184-209): a bare ORM name as
the RHS is S14; a direct non-attribute call to an ORM constructor is
checked for keyword overloading (S11) and tuple targets (S12), and the
first target's name is recorded.  `node.value.func.id` on a func without
an `id` raises AttributeError; `node.targets[0]` on an empty target list
raises IndexError; the `targets[0].id` read is guarded by
`except AttributeError: pass` in the source. -/
def assignLogic (k : Nat) (targets : NodeList) (value : Node)
    (st : LinterState) : Except PyErr LinterState := do
  let st1 :=
    match value with
    | .nameExpr _ vid =>
        if vid == "Hash" || vid == "Variable" || vid == "LogEvent" then
          flag st (msgS14 k)
        else st
    | _ => st
  match value with
  | .callExpr _ func _ kws =>
      match func with
      | .attributeExpr _ _ _ => pure st1
      | _ =>
          match getIdOpt func with
          | Option.none => .error .attributeError
          | Option.some fid =>
              if ORM_CLASS_NAMES.contains fid then do
                let hasKw ← kwHasContractOrName kws
                let st2 :=
                  if (fid == "Variable" || fid == "Hash" || fid == "LogEvent")
                      && hasKw then flag st1 (msgS11 k)
                  else st1
                let st3 :=
                  if nlAnyTuple targets || isTupleNode value then
                    flag st2 (msgS12 k)
                  else st2
                match targets with
                | .nil => .error .indexError
                | .cons t0 _ =>
                    match getIdOpt t0 with
                    | Option.some tid =>
                        pure { st3 with ormNames := setAdd st3.ormNames tid }
                    | Option.none => pure st3
              else pure st1
  | _ => pure st1

/-- Leaf check of `visit_Call` (linter.py 220-226): a Name callee whose id
is an illegal builtin is flagged S14 — with no `float` exemption. -/
def visitCallLeaf (k : Nat) (func : Node) (st : LinterState) : LinterState :=
  match func with
  | .nameExpr _ fid =>
      if ILLEGAL_BUILTINS.contains fid then flag st (msgS14 k) else st
  | _ => st

/-- The S1 step of `generic_visit` (linter.py 231-239). -/
def illegalCheck (n : Node) (st : LinterState) : LinterState :=
  if isIllegalAstType n then flag st (msgS1 (nodeLineno n)) else st

mutual
/-- `NodeVisitor.visit` dispatch plus the body of each `visit_*` method.
Method order follows the source exactly: leaf checks first, then (where the
method calls it) `generic_visit`, whose two parts — the ILLEGAL_AST_TYPES
check on the node itself and the recursive traversal of child nodes in
`_fields` order — are inlined at each use.  `visit_Import` and
`visit_ImportFrom` return without calling `generic_visit`, so their
children are not traversed. -/
def visitNode : Node → LinterState → Except PyErr LinterState
  | .module body, st => visitList body (illegalCheck (.module body) st)
  | .functionDef k nm args body decs ret, st => do
      let st1 := noNestedImports k body st
      let st2 := closuresCheck k body st1
      let st3 := multiDecoratorCheck k decs st2
      let p := decoratorsCheck k decs st3 false
      let st5 ← processArgs k p.2 args p.1
      let st6 ← returnBranch k p.2 args ret st5
      let st7 := illegalCheck (.functionDef k nm args body decs ret) st6
      let st8 ← visitList args st7
      let st9 ← visitList body st8
      let st10 ← visitList decs st9
      visitOpt ret st10
  | .classDef k nm body, st =>
      visitList body (illegalCheck (.classDef k nm body) (flag st (msgS6 k)))
  | .assign k targets value, st => do
      let st1 ← assignLogic k targets value st
      let st2 := illegalCheck (.assign k targets value) st1
      let st3 ← visitList targets st2
      visitNode value st3
  | .exprStmt k v, st => visitNode v (illegalCheck (.exprStmt k v) st)
  | .importStmt k names, st => importNamesCheck k names st
  | .importFrom k _ _, st => .ok (flag st (msgS4 k))
  | .ifStmt k t b e, st => do
      let st1 ← visitNode t (illegalCheck (.ifStmt k t b e) st)
      let st2 ← visitList b st1
      visitList e st2
  | .passStmt k, st => .ok (illegalCheck (.passStmt k) st)
  | .callExpr k func args kws, st => do
      let st1 := illegalCheck (.callExpr k func args kws) (visitCallLeaf k func st)
      let st2 ← visitNode func st1
      let st3 ← visitList args st2
      visitList kws st3
  | .nameExpr k id, st => .ok (illegalCheck (.nameExpr k id) (visitNameLeaf k id st))
  | .attributeExpr k v attr, st =>
      visitNode v (illegalCheck (.attributeExpr k v attr) (visitAttrLeaf k attr st))
  | .tupleExpr k elts, st => visitList elts (illegalCheck (.tupleExpr k elts) st)
  | .binOp k l r, st => do
      let st1 ← visitNode l (illegalCheck (.binOp k l r) st)
      visitNode r st1
  | .constantExpr k, st => .ok (illegalCheck (.constantExpr k) st)
  | .argNode k nm ann, st => visitOpt ann (illegalCheck (.argNode k nm ann) st)
  | .keywordNode kw v, st => visitNode v (illegalCheck (.keywordNode kw v) st)
  | .aliasNode a b, st => .ok (illegalCheck (.aliasNode a b) st)

/-- Traverse a list of child nodes left to right, threading the state. -/
def visitList : NodeList → LinterState → Except PyErr LinterState
  | .nil, st => .ok st
  | .cons h t, st => do
      let st1 ← visitNode h st
      visitList t st1

/-- Traverse an optional child node. -/
def visitOpt : NodeOpt → LinterState → Except PyErr LinterState
  | .none, st => .ok st
  | .some n, st => visitNode n st
end

/-- The S15 loop of `_final_checks` (linter.py 343-347). -/
def s15Fold : List (String × Nat) → LinterState → LinterState
  | [], st => st
  | (nm, ln) :: t, st =>
      s15Fold t (if st.ormNames.contains nm then flag st (msgS15 ln) else st)

/-- The `annotation_types` check (linter.py 315-323): S17 for a missing
annotation, S16 for a non-whitelisted spelling. -/
def annTypesCheck (t : Option String) (ln : Nat) (st : LinterState) : LinterState :=
  match t with
  | Option.none => flag st (msgS17 ln)
  | Option.some s =>
      if !ALLOWED_ANNOTATION_TYPES.contains s then flag st (msgS16 ln s) else st

/-- Fold of `annotation_types` over `arg_types` (linter.py 354-355). -/
def annTypesFold : List (Option String × Nat) → LinterState → LinterState
  | [], st => st
  | (t, ln) :: r, st => annTypesFold r (annTypesCheck t ln st)

/-- The `check_return_types` check (linter.py 325-329): S18 whenever the
recorded value is not None. -/
def checkReturnTypes (t : Option String) (ln : Nat) (st : LinterState) : LinterState :=
  match t with
  | Option.none => st
  | Option.some s => flag st (msgS18 ln s)

/-- Fold of `check_return_types` over `return_annotation` (357-358). -/
def retAnnsFold : List (Option String × Nat) → LinterState → LinterState
  | [], st => st
  | (t, ln) :: r, st => retAnnsFold r (checkReturnTypes t ln st)

/-- `_final_checks` (linter.py 342-358).  The S13 branch reuses the loop
variable `lineno` left over from the S15 loop; when `visited_args` is
empty that variable is unbound and Python raises NameError. -/
def finalChecks (st : LinterState) : Except PyErr LinterState := do
  let st1 := s15Fold st.visitedArgs st
  let lastLn := (st.visitedArgs.map Prod.snd).getLast?
  let st2 ←
    if !st1.isOneExport then
      match lastLn with
      | Option.none => Except.error (PyErr.nameError "lineno")
      | Option.some ln => pure (flag st1 (msgS13 ln))
    else pure st1
  let st3 := annTypesFold st2.argTypes st2
  pure (retAnnsFold st3.retAnns st3)

/-- `Linter.check` (linter.py 371-381): reset, traverse, run the final
checks, and return the violation list on failure or None on success.
(The `_collect_function_defs` pass populates a list nothing reads.) -/
def linterCheck (tree : Node) : Except PyErr (Option (List String)) := do
  let st ← visitNode tree {}
  let st' ← finalChecks st
  pure (if st'.isSuccess then Option.none else Option.some st'.violations)

/-- Standardized error record of main.py: a dict with a `message` key and,
when positional information exists, `line` and `col` keys.  A field that is
`Option.none` models an absent dict key (subscripting it raises KeyError). -/
structure ErrorRec : Type where
  message : String
  line : Option Int := Option.none
  col : Option Int := Option.none
deriving DecidableEq, Repr

/-- Python regex `\s` character class. -/
def isPySpace (c : Char) : Bool :=
  c == ' ' || c == '\t' || c == '\n' || c == '\r' || c == '\x0b' || c == '\x0c'

/-- Value of `int(digit string)`. -/
def digitsToNat (l : List Char) : Nat :=
  l.foldl (fun a c => a * 10 + (c.toNat - 48)) 0

/-- `CONTRACTING_PATTERN.match(s)` for `re.compile(r"Line (\d+):\s*(.+)")`
(main.py line 56), returning the two groups on success.  `.` does not match
a newline, hence the cut at `'\n'`; the degenerate backtracking case in
which everything after the colon is whitespace (where the regex would match
a whitespace character with `.+`) cannot arise for any linter message and
is rendered as a failure. -/
def matchContracting (s : String) : Option (Nat × String) :=
  match s.toList with
  | 'L' :: 'i' :: 'n' :: 'e' :: ' ' :: rest =>
      let ds := rest.takeWhile Char.isDigit
      let r1 := rest.dropWhile Char.isDigit
      if ds.isEmpty then Option.none
      else
        match r1 with
        | ':' :: r2 =>
            let r3 := r2.dropWhile isPySpace
            let g2 := r3.takeWhile (fun c => c != '\n')
            if g2.isEmpty then Option.none
            else Option.some (digitsToNat ds, String.mk g2)
        | _ => Option.none
  | _ => Option.none

/-- `parse_contracting_line` (main.py 109-119): a matching message becomes
a record with zero-based line and column 0, except that line number 0
yields a record with no position keys; a non-matching message is passed
through as a message-only record. -/
def parseContractingLine (v : String) : ErrorRec :=
  match matchContracting v with
  | Option.some (n, msg) =>
      if n == 0 then { message := msg }
      else { message := msg, line := Option.some ((n : Int) - 1), col := Option.some 0 }
  | Option.none => { message := v }

/-- Tail of the location-suffix pattern after `(<unknown>,`:
`\s*line\s*\d+\)` followed by end of string. -/
def locSuffixTail (l : List Char) : Bool :=
  match l.dropWhile isPySpace with
  | 'l' :: 'i' :: 'n' :: 'e' :: l2 =>
      let l3 := l2.dropWhile isPySpace
      let ds := l3.takeWhile Char.isDigit
      let l4 := l3.dropWhile Char.isDigit
      !ds.isEmpty && l4 == [')']
  | _ => false

/-- Whether a character list matches the full location pattern
`\s*\(<unknown>,\s*line\s*\d+\)$` of `standardize_error_message`. -/
def locSuffixMatch (l : List Char) : Bool :=
  match l.dropWhile isPySpace with
  | '(' :: '<' :: 'u' :: 'n' :: 'k' :: 'n' :: 'o' :: 'w' :: 'n' :: '>' :: ',' :: l2 =>
      locSuffixTail l2
  | _ => false

/-- Drop the leftmost suffix matching the location pattern (`re.sub` with
an end-anchored pattern removes exactly that suffix). -/
def stripLocAux : List Char → List Char
  | [] => []
  | c :: cs => if locSuffixMatch (c :: cs) then [] else c :: stripLocAux cs

/-- `standardize_error_message` (main.py 59-63). -/
def stdErrorMessage (m : String) : String := String.mk (stripLocAux m.toList)

/-- Truthiness of `error["line"]`: KeyError when the key is absent; an int
is falsy exactly when it is 0. -/
def truthyLine : Option Int → Except PyErr Bool
  | Option.none => .error (.keyError "line")
  | Option.some n => .ok (n != 0)

/-- `error["col"]` access. -/
def getCol : Option Int → Except PyErr Int
  | Option.none => .error (.keyError "col")
  | Option.some c => .ok c

/-- `is_duplicate_error` (main.py 66-82).  Note the `error["line"]`
subscriptions: on a record without a `line` key they raise KeyError, which
nothing in main.py catches. -/
def isDuplicateError (e1 e2 : ErrorRec) : Except PyErr Bool := do
  if e1.message != e2.message then pure false
  else do
    let b1 ← truthyLine e1.line
    let b2 ← truthyLine e2.line
    if b1 != b2 then pure false
    else if b1 && b2 then
      if e1.line != e2.line then pure false
      else do
        let c1 ← getCol e1.col
        let c2 ← getCol e2.col
        pure (c1 == c2)
    else pure true

/-- `any(is_duplicate_error(error, existing) for existing in unique)`:
sequential with short-circuit; a raised error propagates. -/
def anyDuplicate (e : ErrorRec) : List ErrorRec → Except PyErr Bool
  | [] => pure false
  | x :: xs => do
      let b ← isDuplicateError e x
      if b then pure true else anyDuplicate e xs

/-- Worker of `deduplicate_errors` (main.py 85-92), threading the
accumulated unique list. -/
def dedupGo : List ErrorRec → List ErrorRec → Except PyErr (List ErrorRec)
  | [], acc => pure acc
  | e :: rest, acc => do
      let e1 : ErrorRec := { e with message := stdErrorMessage e.message }
      let dup ← anyDuplicate e1 acc
      dedupGo rest (if dup then acc else acc ++ [e1])

/-- `deduplicate_errors` (main.py 85-92). -/
def dedupErrors (errors : List ErrorRec) : Except PyErr (List ErrorRec) :=
  dedupGo errors []

/-- Python `str.strip()`: drop leading and trailing whitespace (computed
on the character list). -/
def pyStrip (s : String) : String :=
  String.mk (((s.toList.dropWhile isPySpace).reverse.dropWhile isPySpace).reverse)

/-- A parser SyntaxError: message, optional 1-based line, optional offset
(the fields `run_contracting_linter` reads). -/
structure SynErr : Type where
  msg : String
  lineno : Option Nat
  offset : Option Nat

/-- Rendering `str(e)` for the modelled exceptions.  The exact strings are
a host/version artifact (CPython 3.11 shown); no theorem below depends on
them. -/
def pyErrStr : PyErr → String
  | .nameError v =>
      "cannot access local variable '" ++ v
        ++ "' where it is not associated with a value"
  | .attributeError => "AttributeError"
  | .indexError => "list index out of range"
  | .keyError k => "'" ++ k ++ "'"

/-- `run_contracting_linter` (main.py 149-170) from the point where
`ast.parse` has either produced a tree or raised: a SyntaxError with a
line number becomes one positioned record; any other exception becomes a
LintingException (modelled as the error side, carrying `str(e)`); linter
violations are stripped, filtered for emptiness, and parsed. -/
def runContractingLinterModel (parsed : Except SynErr Node) :
    Except String (List ErrorRec) :=
  match parsed with
  | .error e =>
      match e.lineno with
      | Option.some ln =>
          .ok [{ message := e.msg
               , line := Option.some ((ln : Int) - 1)
               , col := Option.some
                   (match e.offset with
                    | Option.some o => if o == 0 then 0 else (o : Int) - 1
                    | Option.none => 0) }]
      | Option.none => .error e.msg
  | .ok tree =>
      match linterCheck tree with
      | .error pe => .error (pyErrStr pe)
      | .ok Option.none => .ok []
      | .ok (Option.some vs) =>
          .ok (vs.filterMap (fun v =>
            let t := pyStrip v
            if t == "" then Option.none else Option.some (parseContractingLine t)))

/-- `lint_code` (main.py 179-193).  The pyflakes task is the external
collaborator (spec §1, out of scope); its already-parsed, already
whitelist-filtered records enter as a parameter and are concatenated
first, as `asyncio.gather` orders results.  A LintingException from either
task is caught and becomes a single message-only record; an exception
raised by `deduplicate_errors` (such as the KeyError from
`is_duplicate_error`) is not a LintingException and propagates to the
caller. -/
def lintCodeModel (pyflakesRecs : List ErrorRec) (parsed : Except SynErr Node) :
    Except PyErr (List ErrorRec) :=
  match runContractingLinterModel parsed with
  | .error msg => .ok [{ message := msg }]
  | .ok recs => dedupErrors (pyflakesRecs ++ recs)

/-- Tree of the exported function
`@export`  /  `def f(a: int):`  /  `    pass`
used as the well-formed prefix of several concrete programs (it keeps
`visited_args` nonempty and the export flag set, so `_final_checks`
completes). -/
def exportFnNode : Node :=
  Node.functionDef 2 "f"
    (nl [Node.argNode 2 "a" (NodeOpt.some (Node.nameExpr 2 "int"))])
    (nl [Node.passStmt 3])
    (nl [Node.nameExpr 1 "export"])
    NodeOpt.none

/-- The empty module (source text with no statements). -/
def pEmpty : Node := Node.module NodeList.nil

/-- `@export` / `def f(a: int) -> int:` / `    pass` — an exported function
carrying a return annotation. -/
def pRetAnn : Node := Node.module (nl [
  Node.functionDef 2 "f"
    (nl [Node.argNode 2 "a" (NodeOpt.some (Node.nameExpr 2 "int"))])
    (nl [Node.passStmt 3])
    (nl [Node.nameExpr 1 "export"])
    (NodeOpt.some (Node.nameExpr 2 "int"))])

/-- The export prefix followed by `def g():` / `    import x` — a
simple import directly inside a function body. -/
def pFnImport : Node := Node.module (nl [exportFnNode,
  Node.functionDef 4 "g" NodeList.nil
    (nl [Node.importStmt 5 (nl [Node.aliasNode "x" Option.none])])
    NodeList.nil NodeOpt.none])

/-- The export prefix followed by `if True:` / `    import x` — an import
nested inside a conditional body at module level. -/
def pIfImport : Node := Node.module (nl [exportFnNode,
  Node.ifStmt 4 (Node.constantExpr 4)
    (nl [Node.importStmt 5 (nl [Node.aliasNode "x" Option.none])])
    NodeList.nil])

/-- `@export` / `def f(a: int):` / `    b = float(a)` — a call whose
callee is the name `float`. -/
def pFloatCall : Node := Node.module (nl [
  Node.functionDef 2 "f"
    (nl [Node.argNode 2 "a" (NodeOpt.some (Node.nameExpr 2 "int"))])
    (nl [Node.assign 3 (nl [Node.nameExpr 3 "b"])
        (Node.callExpr 3 (Node.nameExpr 3 "float")
          (nl [Node.nameExpr 3 "a"]) NodeList.nil)])
    (nl [Node.nameExpr 1 "export"])
    NodeOpt.none])

/-- The export prefix followed by `x, y = Hash(), Variable()` — a
tuple-unpacking assignment whose right-hand side is itself a tuple of ORM
constructor calls. -/
def pTupleRhs : Node := Node.module (nl [exportFnNode,
  Node.assign 4 (nl [Node.tupleExpr 4 (nl [Node.nameExpr 4 "x", Node.nameExpr 4 "y"])])
    (Node.tupleExpr 4 (nl [
      Node.callExpr 4 (Node.nameExpr 4 "Hash") NodeList.nil NodeList.nil,
      Node.callExpr 4 (Node.nameExpr 4 "Variable") NodeList.nil NodeList.nil]))])

/-- The export prefix followed by `x, y = Hash()` — tuple-unpacking
targets with a direct ORM constructor call on the right. -/
def pTupleTargets : Node := Node.module (nl [exportFnNode,
  Node.assign 4 (nl [Node.tupleExpr 4 (nl [Node.nameExpr 4 "x", Node.nameExpr 4 "y"])])
    (Node.callExpr 4 (Node.nameExpr 4 "Hash") NodeList.nil NodeList.nil)])

/-- The export prefix followed by `class A:` / `    pass`. -/
def pClassDef : Node := Node.module (nl [exportFnNode,
  Node.classDef 4 "A" (nl [Node.passStmt 5])])

/-- `@export` / `def f(a: int):` / `    b = _x + _x` — two occurrences of
an underscore-prefixed name on one line, producing two identical S2
messages. -/
def pUnderscore : Node := Node.module (nl [
  Node.functionDef 2 "f"
    (nl [Node.argNode 2 "a" (NodeOpt.some (Node.nameExpr 2 "int"))])
    (nl [Node.assign 3 (nl [Node.nameExpr 3 "b"])
        (Node.binOp 3 (Node.nameExpr 3 "_x") (Node.nameExpr 3 "_x"))])
    (nl [Node.nameExpr 1 "export"])
    NodeOpt.none])

/-- `def g():` / `    pass` — one function, no arguments, no decorator. -/
def pNoArgFn : Node := Node.module (nl [
  Node.functionDef 1 "g" NodeList.nil (nl [Node.passStmt 2])
    NodeList.nil NodeOpt.none])

/-- A chain of `n` nested `if True:` blocks ending in `pass` (all at a
fixed source line; only the nesting depth matters). -/
def nestIfs : Nat → Node
  | 0 => Node.passStmt 3
  | n + 1 =>
      Node.ifStmt 3 (Node.constantExpr 3)
        (NodeList.cons (nestIfs n) NodeList.nil) NodeList.nil

/-- The export prefix followed by an `n`-deep nest of conditionals. -/
def deepProgram (n : Nat) : Node :=
  Node.module (nl [exportFnNode, nestIfs n])

mutual
/-- Nesting depth of a node (1 + the depth of its deepest child). -/
def nodeDepth : Node → Nat
  | .module b => 1 + nodeListDepth b
  | .functionDef _ _ a b d r =>
      1 + max (max (nodeListDepth a) (nodeListDepth b))
              (max (nodeListDepth d) (nodeOptDepth r))
  | .classDef _ _ b => 1 + nodeListDepth b
  | .assign _ t v => 1 + max (nodeListDepth t) (nodeDepth v)
  | .exprStmt _ v => 1 + nodeDepth v
  | .importStmt _ ns => 1 + nodeListDepth ns
  | .importFrom _ _ ns => 1 + nodeListDepth ns
  | .ifStmt _ t b e =>
      1 + max (nodeDepth t) (max (nodeListDepth b) (nodeListDepth e))
  | .passStmt _ => 1
  | .callExpr _ f a k => 1 + max (nodeDepth f) (max (nodeListDepth a) (nodeListDepth k))
  | .nameExpr _ _ => 1
  | .attributeExpr _ v _ => 1 + nodeDepth v
  | .tupleExpr _ e => 1 + nodeListDepth e
  | .binOp _ l r => 1 + max (nodeDepth l) (nodeDepth r)
  | .constantExpr _ => 1
  | .argNode _ _ a => 1 + nodeOptDepth a
  | .keywordNode _ v => 1 + nodeDepth v
  | .aliasNode _ _ => 1

/-- Depth of the deepest node in a list. -/
def nodeListDepth : NodeList → Nat
  | .nil => 0
  | .cons h t => max (nodeDepth h) (nodeListDepth t)

/-- Depth of an optional node. -/
def nodeOptDepth : NodeOpt → Nat
  | .none => 0
  | .some n => nodeDepth n
end

mutual
/-- Whether a class definition with line number `j` occurs in the tree, at
a position the traversal reaches.  The alias lists of Import/ImportFrom
are excluded: in parser-produced trees they hold only alias nodes, and the
visitor does not descend into them. -/
def hasCD : Node → Nat → Bool
  | .classDef k _ b, j => k == j || hasCDList b j
  | .module b, j => hasCDList b j
  | .functionDef _ _ a b d r, j =>
      hasCDList a j || hasCDList b j || hasCDList d j || hasCDOpt r j
  | .assign _ t v, j => hasCDList t j || hasCD v j
  | .exprStmt _ v, j => hasCD v j
  | .importStmt _ _, _ => false
  | .importFrom _ _ _, _ => false
  | .ifStmt _ t b e, j => hasCD t j || hasCDList b j || hasCDList e j
  | .passStmt _, _ => false
  | .callExpr _ f a k, j => hasCD f j || hasCDList a j || hasCDList k j
  | .nameExpr _ _, _ => false
  | .attributeExpr _ v _, j => hasCD v j
  | .tupleExpr _ e, j => hasCDList e j
  | .binOp _ l r, j => hasCD l j || hasCD r j
  | .constantExpr _, _ => false
  | .argNode _ _ a, j => hasCDOpt a j
  | .keywordNode _ v, j => hasCD v j
  | .aliasNode _ _, _ => false

/-- Class-definition occurrence in a node list. -/
def hasCDList : NodeList → Nat → Bool
  | .nil, _ => false
  | .cons h t, j => hasCD h j || hasCDList t j

/-- Class-definition occurrence in an optional node. -/
def hasCDOpt : NodeOpt → Nat → Bool
  | .none, _ => false
  | .some n, j => hasCD n j
end

/-- Whether the direct statement list contains an import node — the exact
condition scanned by `no_nested_imports`. -/
def hasDirectImport : NodeList → Bool
  | .nil => false
  | .cons (.importStmt _ _) _ => true
  | .cons (.importFrom _ _ _) _ => true
  | .cons _ t => hasDirectImport t

/-- What one linter step can do to the accumulation state: violations are
only appended (never removed or reordered), and a cleared success flag
stays cleared. -/
def Progress (st st' : LinterState) : Prop :=
  st.violations <+: st'.violations ∧
  (st.isSuccess = false → st'.isSuccess = false)

/-- Annotation spelling of one argument of the minimal accepted program:
either a plain name or a dotted module attribute. -/
inductive AnnSpec : Type where
  | simple (s : String)
  | dotted (base attr : String)

/-- The annotation node a spelling parses to. -/
def annSpecNode : AnnSpec → Node
  | .simple s => Node.nameExpr 2 s
  | .dotted b a => Node.attributeExpr 2 (Node.nameExpr 2 b) a

/-- The whitelisted spellings (the plain ones, plus the two dotted
datetime spellings, exactly covering ALLOWED_ANNOTATION_TYPES). -/
def annSpecOk : AnnSpec → Prop
  | .simple s => s ∈ ["dict", "list", "str", "int", "float", "bool", "Any"]
  | .dotted b a => (b, a) ∈ [("datetime", "timedelta"), ("datetime", "datetime")]

instance : DecidablePred annSpecOk := fun a =>
  match a with
  | .simple s =>
      inferInstanceAs (Decidable (s ∈ ["dict", "list", "str", "int", "float", "bool", "Any"]))
  | .dotted b a =>
      inferInstanceAs (Decidable ((b, a) ∈ [("datetime", "timedelta"), ("datetime", "datetime")]))

/-- One annotated argument node of the minimal accepted program. -/
def mkMinArg (p : String × AnnSpec) : Node :=
  Node.argNode 2 p.1 (NodeOpt.some (annSpecNode p.2))

/-- The spelling string `visit_FunctionDef` extracts from the annotation
node (`a.annotation.id`, or the dotted `value.id + '.' + attr`). -/
def annSpecStr : AnnSpec → String
  | .simple s => s
  | .dotted b a => b ++ "." ++ a

/-- Minimal accepted input shape: a module holding exactly one function,
decorated `export`, every argument annotated, `pass` body, no return
annotation. -/
def minimalProgram (fname : String) (args : List (String × AnnSpec)) : Node :=
  Node.module (nl [Node.functionDef 2 fname
    (nl (args.map mkMinArg))
    (nl [Node.passStmt 3])
    (nl [Node.nameExpr 1 "export"])
    NodeOpt.none])

/-- A description string is well-behaved for CONTRACTING_PATTERN when it
is nonempty, does not begin with whitespace, and has no newline — true of
every description the linter interpolates. -/
def goodDesc (s : String) : Bool :=
  match s.toList with
  | [] => false
  | c :: _ => !isPySpace c && s.toList.all (fun c2 => !(c2 == '\n'))

/-- An `arg_types` entry whose spelling passes `annotation_types`. -/
def annEntryOk (e : Option String × Nat) : Prop :=
  ∃ s, e.1 = Option.some s ∧ ALLOWED_ANNOTATION_TYPES.contains s = true

/-- The marks the ClassDef handler leaves: an S6 and an S1 message at the
node's line, and a cleared success flag. -/
def CDMarked (j : Nat) (st : LinterState) : Prop :=
  msgS6 j ∈ st.violations ∧ msgS1 j ∈ st.violations ∧ st.isSuccess = false

theorem progress_rfl (st : LinterState) : Progress st st :=
  ⟨List.prefix_rfl, fun h => h⟩

theorem progress_trans {a b c : LinterState} (h1 : Progress a b) (h2 : Progress b c) :
    Progress a c :=
  ⟨h1.1.trans h2.1, fun h => h2.2 (h1.2 h)⟩

theorem progress_mem {a b : LinterState} (h : Progress a b) {m : String}
    (hm : m ∈ a.violations) : m ∈ b.violations :=
  h.1.subset hm

theorem flag_progress (st : LinterState) (s : String) : Progress st (flag st s) :=
  ⟨List.prefix_append _ _, fun _ => rfl⟩

theorem flag_mem (st : LinterState) (s : String) : s ∈ (flag st s).violations := by
  simp [flag]

theorem flag_not_success (st : LinterState) (s : String) :
    (flag st s).isSuccess = false := rfl

theorem exbind_ok_iff {α β : Type} {x : Except PyErr α} {f : α → Except PyErr β}
    {b : β} : x >>= f = Except.ok b ↔ ∃ a, x = Except.ok a ∧ f a = Except.ok b := by
  cases x <;> simp [Bind.bind, Except.bind]

theorem ite_flag_progress (c : Prop) [Decidable c] (st : LinterState) (s : String) :
    Progress st (if c then flag st s else st) := by
  split
  · exact flag_progress _ _
  · exact progress_rfl _

theorem notSystemVariable_progress (v : String) (k : Nat) (st : LinterState) :
    Progress st (notSystemVariable v k st) := by
  unfold notSystemVariable
  split
  · exact flag_progress st _
  · exact progress_rfl st

theorem visitNameLeaf_progress (k : Nat) (id : String) (st : LinterState) :
    Progress st (visitNameLeaf k id st) := by
  unfold visitNameLeaf
  exact progress_trans (notSystemVariable_progress id k st)
    (progress_trans (ite_flag_progress _ _ _) (ite_flag_progress _ _ _))

theorem visitAttrLeaf_progress (k : Nat) (attr : String) (st : LinterState) :
    Progress st (visitAttrLeaf k attr st) := by
  unfold visitAttrLeaf
  exact progress_trans (notSystemVariable_progress attr k st) (ite_flag_progress _ _ _)

theorem visitCallLeaf_progress (k : Nat) (func : Node) (st : LinterState) :
    Progress st (visitCallLeaf k func st) := by
  unfold visitCallLeaf
  split
  · exact ite_flag_progress _ _ _
  · exact progress_rfl _

theorem illegalCheck_progress (n : Node) (st : LinterState) :
    Progress st (illegalCheck n st) := by
  unfold illegalCheck
  exact ite_flag_progress _ _ _

theorem multiDecoratorCheck_progress (k : Nat) (decs : NodeList) (st : LinterState) :
    Progress st (multiDecoratorCheck k decs st) := by
  unfold multiDecoratorCheck
  exact ite_flag_progress _ _ _

theorem noNestedImports_progress (k : Nat) : ∀ (l : NodeList) (st : LinterState),
    Progress st (noNestedImports k l st)
  | NodeList.nil, st => progress_rfl st
  | NodeList.cons h t, st => by
      cases h <;> simp only [noNestedImports] <;>
        first
          | exact progress_trans (flag_progress _ _) (noNestedImports_progress k t _)
          | exact noNestedImports_progress k t _

theorem closuresCheck_progress (k : Nat) : ∀ (l : NodeList) (st : LinterState),
    Progress st (closuresCheck k l st)
  | NodeList.nil, st => progress_rfl st
  | NodeList.cons h t, st => by
      cases h <;> simp only [closuresCheck] <;>
        first
          | exact progress_trans (flag_progress _ _) (closuresCheck_progress k t _)
          | exact closuresCheck_progress k t _

theorem decoratorStep_progress (k : Nat) (did : String) (st : LinterState) :
    Progress st (decoratorStep k did st) := by
  simp only [decoratorStep]
  split_ifs <;>
    exact ⟨by simp [flag, List.prefix_rfl], by intro h; simp_all [flag]⟩

theorem decoratorsCheck_progress (k : Nat) : ∀ (l : NodeList) (st : LinterState)
    (e : Bool), Progress st (decoratorsCheck k l st e).1
  | NodeList.nil, st, _ => progress_rfl st
  | NodeList.cons d t, st, e => by
      simp only [decoratorsCheck]
      cases getIdOpt d with
      | none => exact decoratorsCheck_progress k t st e
      | some did =>
          exact progress_trans (decoratorStep_progress k did st)
            (decoratorsCheck_progress k t _ _)

theorem update_progress_visitedArgs (st : LinterState) (v : List (String × Nat)) :
    Progress st { st with visitedArgs := v } :=
  ⟨List.prefix_rfl, fun h => h⟩

theorem update_progress_va_at (st : LinterState) (v : List (String × Nat))
    (a : List (Option String × Nat)) :
    Progress st { st with visitedArgs := v, argTypes := a } :=
  ⟨List.prefix_rfl, fun h => h⟩

theorem update_progress_argTypes (st : LinterState) (v : List (Option String × Nat)) :
    Progress st { st with argTypes := v } :=
  ⟨List.prefix_rfl, fun h => h⟩

theorem update_progress_retAnns (st : LinterState) (v : List (Option String × Nat)) :
    Progress st { st with retAnns := v } :=
  ⟨List.prefix_rfl, fun h => h⟩

theorem update_progress_ormNames (st : LinterState) (v : List String) :
    Progress st { st with ormNames := v } :=
  ⟨List.prefix_rfl, fun h => h⟩

theorem importNamesCheck_progress (k : Nat) : ∀ (l : NodeList) (st st' : LinterState),
    importNamesCheck k l st = Except.ok st' → Progress st st'
  | NodeList.nil, st, st' => by
      intro h
      simp only [importNamesCheck, Except.ok.injEq] at h
      subst h
      exact progress_rfl _
  | NodeList.cons n t, st, st' => by
      intro h
      cases n <;> simp only [importNamesCheck] at h <;>
        first
          | exact Except.noConfusion h
          | exact progress_trans (ite_flag_progress _ _ _)
              (importNamesCheck_progress k t _ _ h)

theorem processArgs_progress (k : Nat) : ∀ (l : NodeList) (e : Bool)
    (st st' : LinterState), processArgs k e l st = Except.ok st' → Progress st st'
  | NodeList.nil, e, st, st' => by
      intro h
      simp only [processArgs, Except.ok.injEq] at h
      subst h
      exact progress_rfl _
  | NodeList.cons n t, e, st, st' => by
      intro h
      cases n <;> simp only [processArgs] at h <;>
        try exact Except.noConfusion h
      case argNode ln nm ann =>
        cases e with
        | false =>
            simp only [Bool.false_eq_true, if_false, pure, Except.pure,
              Bind.bind, Except.bind] at h
            exact progress_trans (update_progress_visitedArgs _ _)
              (processArgs_progress k t false _ _ h)
        | true =>
            simp only [if_true] at h
            cases ann with
            | none =>
                simp only [pure, Except.pure, Bind.bind, Except.bind] at h
                exact progress_trans (update_progress_va_at _ _ _)
                  (processArgs_progress k t true _ _ h)
            | some a =>
                rw [exbind_ok_iff] at h
                obtain ⟨s, _, h⟩ := h
                simp only [pure, Except.pure, Bind.bind, Except.bind] at h
                exact progress_trans (update_progress_va_at _ _ _)
                  (processArgs_progress k t true _ _ h)

theorem returnBranch_progress (k : Nat) (e : Bool) (args : NodeList) (ret : NodeOpt)
    (st st' : LinterState) (h : returnBranch k e args ret st = Except.ok st') :
    Progress st st' := by
  unfold returnBranch at h
  cases e with
  | false =>
      simp only [Bool.false_eq_true, if_false, Except.ok.injEq] at h
      subst h
      exact progress_rfl _
  | true =>
      simp only [if_true] at h
      cases ret with
      | none =>
          simp only [Except.ok.injEq] at h
          subst h
          exact update_progress_retAnns _ _
      | some r =>
          cases hl : nlLast args with
          | none => rw [hl] at h; exact Except.noConfusion h
          | some a =>
              rw [hl] at h
              cases a <;> try exact Except.noConfusion h
              case argNode ln nm ann =>
                rw [exbind_ok_iff] at h
                obtain ⟨s, _, h⟩ := h
                simp only [pure, Except.pure, Except.ok.injEq] at h
                subst h
                exact update_progress_argTypes _ _

theorem assignLogic_progress (k : Nat) (targets : NodeList) (value : Node)
    (st st' : LinterState) (h : assignLogic k targets value st = Except.ok st') :
    Progress st st' := by
  cases value <;> simp only [assignLogic, pure, Except.pure, Except.ok.injEq] at h <;>
    try (subst h; exact progress_rfl _)
  case nameExpr k2 vid =>
    subst h
    exact ite_flag_progress _ _ _
  case callExpr k2 func cargs kws =>
    cases func <;> simp only [getIdOpt] at h <;> try exact Except.noConfusion h
    case attributeExpr k3 v attr =>
      simp only [Except.ok.injEq] at h
      subst h
      exact progress_rfl _
    case nameExpr k3 fid =>
      by_cases hc : ORM_CLASS_NAMES.contains fid = true
      · rw [if_pos hc] at h
        rw [exbind_ok_iff] at h
        obtain ⟨b, _, h⟩ := h
        cases targets with
        | nil => exact Except.noConfusion h
        | cons t0 ts =>
            cases t0 <;> simp only [Except.ok.injEq] at h <;> subst h <;>
              exact progress_trans (ite_flag_progress _ _ _) (ite_flag_progress _ _ _)
      · rw [if_neg hc] at h
        simp only [pure, Except.pure, Except.ok.injEq] at h
        subst h
        exact progress_rfl _

theorem annTypesCheck_progress (t : Option String) (ln : Nat) (st : LinterState) :
    Progress st (annTypesCheck t ln st) := by
  cases t <;> simp only [annTypesCheck]
  · exact flag_progress _ _
  · exact ite_flag_progress _ _ _

theorem checkReturnTypes_progress (t : Option String) (ln : Nat) (st : LinterState) :
    Progress st (checkReturnTypes t ln st) := by
  cases t <;> simp only [checkReturnTypes]
  · exact progress_rfl _
  · exact flag_progress _ _

theorem s15Fold_progress : ∀ (l : List (String × Nat)) (st : LinterState),
    Progress st (s15Fold l st)
  | [], st => progress_rfl st
  | (nm, ln) :: t, st => by
      simp only [s15Fold]
      exact progress_trans (ite_flag_progress _ _ _) (s15Fold_progress t _)

theorem annTypesFold_progress : ∀ (l : List (Option String × Nat)) (st : LinterState),
    Progress st (annTypesFold l st)
  | [], st => progress_rfl st
  | (t0, ln) :: t, st => by
      simp only [annTypesFold]
      exact progress_trans (annTypesCheck_progress t0 ln st) (annTypesFold_progress t _)

theorem retAnnsFold_progress : ∀ (l : List (Option String × Nat)) (st : LinterState),
    Progress st (retAnnsFold l st)
  | [], st => progress_rfl st
  | (t0, ln) :: t, st => by
      simp only [retAnnsFold]
      exact progress_trans (checkReturnTypes_progress t0 ln st) (retAnnsFold_progress t _)

theorem finalChecks_progress (st st' : LinterState)
    (h : finalChecks st = Except.ok st') : Progress st st' := by
  unfold finalChecks at h
  simp only [Bind.bind, Except.bind, pure, Except.pure] at h
  by_cases hc : (!(s15Fold st.visitedArgs st).isOneExport) = true
  · rw [if_pos hc] at h
    cases hll : (List.map Prod.snd st.visitedArgs).getLast? <;> rw [hll] at h
    · exact Except.noConfusion h
    · simp only [Except.ok.injEq] at h
      subst h
      exact progress_trans (s15Fold_progress _ _)
        (progress_trans (flag_progress _ _)
          (progress_trans (annTypesFold_progress _ _) (retAnnsFold_progress _ _)))
  · rw [if_neg hc] at h
    simp only [Except.ok.injEq] at h
    subst h
    exact progress_trans (s15Fold_progress _ _)
      (progress_trans (annTypesFold_progress _ _) (retAnnsFold_progress _ _))

mutual
theorem visitNode_progress : ∀ (n : Node) (st st' : LinterState),
    visitNode n st = Except.ok st' → Progress st st'
  | Node.module b, st, st' => fun h => by
      simp only [visitNode] at h
      exact progress_trans (illegalCheck_progress _ _) (visitList_progress b _ _ h)
  | Node.functionDef k nm args body decs ret, st, st' => fun h => by
      simp only [visitNode] at h
      rw [exbind_ok_iff] at h
      obtain ⟨st5, h5, h⟩ := h
      rw [exbind_ok_iff] at h
      obtain ⟨st6, h6, h⟩ := h
      rw [exbind_ok_iff] at h
      obtain ⟨st8, h8, h⟩ := h
      rw [exbind_ok_iff] at h
      obtain ⟨st9, h9, h⟩ := h
      rw [exbind_ok_iff] at h
      obtain ⟨st10, h10, h⟩ := h
      refine progress_trans (noNestedImports_progress k body st) ?_
      refine progress_trans (closuresCheck_progress k body _) ?_
      refine progress_trans (multiDecoratorCheck_progress k decs _) ?_
      refine progress_trans (decoratorsCheck_progress k decs _ false) ?_
      refine progress_trans (processArgs_progress k args _ _ _ h5) ?_
      refine progress_trans (returnBranch_progress k _ args ret _ _ h6) ?_
      refine progress_trans
        (illegalCheck_progress (Node.functionDef k nm args body decs ret) _) ?_
      refine progress_trans (visitList_progress args _ _ h8) ?_
      refine progress_trans (visitList_progress body _ _ h9) ?_
      refine progress_trans (visitList_progress decs _ _ h10) ?_
      exact visitOpt_progress ret _ _ h
  | Node.classDef k nm b, st, st' => fun h => by
      simp only [visitNode] at h
      exact progress_trans (flag_progress _ _)
        (progress_trans (illegalCheck_progress _ _) (visitList_progress b _ _ h))
  | Node.assign k targets value, st, st' => fun h => by
      simp only [visitNode] at h
      rw [exbind_ok_iff] at h
      obtain ⟨st1, h1, h⟩ := h
      rw [exbind_ok_iff] at h
      obtain ⟨st3, h3, h⟩ := h
      exact progress_trans (assignLogic_progress k targets value st _ h1)
        (progress_trans (illegalCheck_progress _ _)
          (progress_trans (visitList_progress targets _ _ h3)
            (visitNode_progress value _ _ h)))
  | Node.exprStmt k v, st, st' => fun h => by
      simp only [visitNode] at h
      exact progress_trans (illegalCheck_progress _ _) (visitNode_progress v _ _ h)
  | Node.importStmt k ns, st, st' => fun h => by
      simp only [visitNode] at h
      exact importNamesCheck_progress k ns _ _ h
  | Node.importFrom k m ns, st, st' => fun h => by
      simp only [visitNode, Except.ok.injEq] at h
      subst h
      exact flag_progress _ _
  | Node.ifStmt k t b e, st, st' => fun h => by
      simp only [visitNode] at h
      rw [exbind_ok_iff] at h
      obtain ⟨s1, h1, h⟩ := h
      rw [exbind_ok_iff] at h
      obtain ⟨s2, h2, h⟩ := h
      exact progress_trans (illegalCheck_progress _ _)
        (progress_trans (visitNode_progress t _ _ h1)
          (progress_trans (visitList_progress b _ _ h2) (visitList_progress e _ _ h)))
  | Node.passStmt k, st, st' => fun h => by
      simp only [visitNode, Except.ok.injEq] at h
      subst h
      exact illegalCheck_progress _ _
  | Node.callExpr k f a kws, st, st' => fun h => by
      simp only [visitNode] at h
      rw [exbind_ok_iff] at h
      obtain ⟨s2, h2, h⟩ := h
      rw [exbind_ok_iff] at h
      obtain ⟨s3, h3, h⟩ := h
      exact progress_trans (visitCallLeaf_progress k f st)
        (progress_trans (illegalCheck_progress _ _)
          (progress_trans (visitNode_progress f _ _ h2)
            (progress_trans (visitList_progress a _ _ h3)
              (visitList_progress kws _ _ h))))
  | Node.nameExpr k id, st, st' => fun h => by
      simp only [visitNode, Except.ok.injEq] at h
      subst h
      exact progress_trans (visitNameLeaf_progress k id st) (illegalCheck_progress _ _)
  | Node.attributeExpr k v attr, st, st' => fun h => by
      simp only [visitNode] at h
      exact progress_trans (visitAttrLeaf_progress k attr st)
        (progress_trans (illegalCheck_progress _ _) (visitNode_progress v _ _ h))
  | Node.tupleExpr k e, st, st' => fun h => by
      simp only [visitNode] at h
      exact progress_trans (illegalCheck_progress _ _) (visitList_progress e _ _ h)
  | Node.binOp k l r, st, st' => fun h => by
      simp only [visitNode] at h
      rw [exbind_ok_iff] at h
      obtain ⟨s1, h1, h⟩ := h
      exact progress_trans (illegalCheck_progress _ _)
        (progress_trans (visitNode_progress l _ _ h1) (visitNode_progress r _ _ h))
  | Node.constantExpr k, st, st' => fun h => by
      simp only [visitNode, Except.ok.injEq] at h
      subst h
      exact illegalCheck_progress _ _
  | Node.argNode k nm ann, st, st' => fun h => by
      simp only [visitNode] at h
      exact progress_trans (illegalCheck_progress _ _) (visitOpt_progress ann _ _ h)
  | Node.keywordNode kw v, st, st' => fun h => by
      simp only [visitNode] at h
      exact progress_trans (illegalCheck_progress _ _) (visitNode_progress v _ _ h)
  | Node.aliasNode a b, st, st' => fun h => by
      simp only [visitNode, Except.ok.injEq] at h
      subst h
      exact illegalCheck_progress _ _

theorem visitList_progress : ∀ (l : NodeList) (st st' : LinterState),
    visitList l st = Except.ok st' → Progress st st'
  | NodeList.nil, st, st' => fun h => by
      simp only [visitList, Except.ok.injEq] at h
      subst h
      exact progress_rfl _
  | NodeList.cons n t, st, st' => fun h => by
      simp only [visitList] at h
      rw [exbind_ok_iff] at h
      obtain ⟨s1, h1, h⟩ := h
      exact progress_trans (visitNode_progress n _ _ h1) (visitList_progress t _ _ h)

theorem visitOpt_progress : ∀ (o : NodeOpt) (st st' : LinterState),
    visitOpt o st = Except.ok st' → Progress st st'
  | NodeOpt.none, st, st' => fun h => by
      simp only [visitOpt, Except.ok.injEq] at h
      subst h
      exact progress_rfl _
  | NodeOpt.some n, st, st' => fun h => by
      simp only [visitOpt] at h
      exact visitNode_progress n _ _ h
end

theorem cdMarked_mono {j : Nat} {a b : LinterState} (hp : Progress a b)
    (h : CDMarked j a) : CDMarked j b :=
  ⟨progress_mem hp h.1, progress_mem hp h.2.1, hp.2 h.2.2⟩

mutual
theorem visitNode_classdef : ∀ (n : Node) (j : Nat) (st st' : LinterState),
    hasCD n j = true → visitNode n st = Except.ok st' → CDMarked j st'
  | Node.module b, j, st, st' => fun hcd h => by
      simp only [hasCD] at hcd
      simp only [visitNode] at h
      exact visitList_classdef b j _ _ hcd h
  | Node.functionDef k nm args body decs ret, j, st, st' => fun hcd h => by
      simp only [hasCD, Bool.or_eq_true] at hcd
      simp only [visitNode] at h
      rw [exbind_ok_iff] at h
      obtain ⟨st5, h5, h⟩ := h
      rw [exbind_ok_iff] at h
      obtain ⟨st6, h6, h⟩ := h
      rw [exbind_ok_iff] at h
      obtain ⟨st8, h8, h⟩ := h
      rw [exbind_ok_iff] at h
      obtain ⟨st9, h9, h⟩ := h
      rw [exbind_ok_iff] at h
      obtain ⟨st10, h10, h⟩ := h
      rcases hcd with ((ha | hb) | hd) | hr
      · exact cdMarked_mono
          (progress_trans (visitList_progress body _ _ h9)
            (progress_trans (visitList_progress decs _ _ h10) (visitOpt_progress ret _ _ h)))
          (visitList_classdef args j _ _ ha h8)
      · exact cdMarked_mono
          (progress_trans (visitList_progress decs _ _ h10) (visitOpt_progress ret _ _ h))
          (visitList_classdef body j _ _ hb h9)
      · exact cdMarked_mono (visitOpt_progress ret _ _ h)
          (visitList_classdef decs j _ _ hd h10)
      · exact visitOpt_classdef ret j _ _ hr h
  | Node.classDef k nm b, j, st, st' => fun hcd h => by
      simp only [hasCD, Bool.or_eq_true] at hcd
      simp only [visitNode] at h
      rcases hcd with hk | hb
      · have hkj : k = j := by simpa using hk
        subst hkj
        refine cdMarked_mono (visitList_progress b _ _ h) ?_
        refine ⟨?_, ?_, ?_⟩ <;>
          simp [illegalCheck, isIllegalAstType, nodeLineno, flag]
      · exact visitList_classdef b j _ _ hb h
  | Node.assign k targets value, j, st, st' => fun hcd h => by
      simp only [hasCD, Bool.or_eq_true] at hcd
      simp only [visitNode] at h
      rw [exbind_ok_iff] at h
      obtain ⟨st1, h1, h⟩ := h
      rw [exbind_ok_iff] at h
      obtain ⟨st3, h3, h⟩ := h
      rcases hcd with ht | hv
      · exact cdMarked_mono (visitNode_progress value _ _ h)
          (visitList_classdef targets j _ _ ht h3)
      · exact visitNode_classdef value j _ _ hv h
  | Node.exprStmt k v, j, st, st' => fun hcd h => by
      simp only [hasCD] at hcd
      simp only [visitNode] at h
      exact visitNode_classdef v j _ _ hcd h
  | Node.importStmt k ns, j, st, st' => fun hcd h => by
      simp only [hasCD] at hcd
      exact Bool.noConfusion hcd
  | Node.importFrom k m ns, j, st, st' => fun hcd h => by
      simp only [hasCD] at hcd
      exact Bool.noConfusion hcd
  | Node.ifStmt k t b e, j, st, st' => fun hcd h => by
      simp only [hasCD, Bool.or_eq_true] at hcd
      simp only [visitNode] at h
      rw [exbind_ok_iff] at h
      obtain ⟨s1, h1, h⟩ := h
      rw [exbind_ok_iff] at h
      obtain ⟨s2, h2, h⟩ := h
      rcases hcd with (htc | hbc) | hec
      · exact cdMarked_mono
          (progress_trans (visitList_progress b _ _ h2) (visitList_progress e _ _ h))
          (visitNode_classdef t j _ _ htc h1)
      · exact cdMarked_mono (visitList_progress e _ _ h)
          (visitList_classdef b j _ _ hbc h2)
      · exact visitList_classdef e j _ _ hec h
  | Node.passStmt k, j, st, st' => fun hcd h => by
      simp only [hasCD] at hcd
      exact Bool.noConfusion hcd
  | Node.callExpr k f a kws, j, st, st' => fun hcd h => by
      simp only [hasCD, Bool.or_eq_true] at hcd
      simp only [visitNode] at h
      rw [exbind_ok_iff] at h
      obtain ⟨s2, h2, h⟩ := h
      rw [exbind_ok_iff] at h
      obtain ⟨s3, h3, h⟩ := h
      rcases hcd with (hf | ha) | hk2
      · exact cdMarked_mono
          (progress_trans (visitList_progress a _ _ h3) (visitList_progress kws _ _ h))
          (visitNode_classdef f j _ _ hf h2)
      · exact cdMarked_mono (visitList_progress kws _ _ h)
          (visitList_classdef a j _ _ ha h3)
      · exact visitList_classdef kws j _ _ hk2 h
  | Node.nameExpr k id, j, st, st' => fun hcd h => by
      simp only [hasCD] at hcd
      exact Bool.noConfusion hcd
  | Node.attributeExpr k v attr, j, st, st' => fun hcd h => by
      simp only [hasCD] at hcd
      simp only [visitNode] at h
      exact visitNode_classdef v j _ _ hcd h
  | Node.tupleExpr k e, j, st, st' => fun hcd h => by
      simp only [hasCD] at hcd
      simp only [visitNode] at h
      exact visitList_classdef e j _ _ hcd h
  | Node.binOp k l r, j, st, st' => fun hcd h => by
      simp only [hasCD, Bool.or_eq_true] at hcd
      simp only [visitNode] at h
      rw [exbind_ok_iff] at h
      obtain ⟨s1, h1, h⟩ := h
      rcases hcd with hl | hr
      · exact cdMarked_mono (visitNode_progress r _ _ h)
          (visitNode_classdef l j _ _ hl h1)
      · exact visitNode_classdef r j _ _ hr h
  | Node.constantExpr k, j, st, st' => fun hcd h => by
      simp only [hasCD] at hcd
      exact Bool.noConfusion hcd
  | Node.argNode k nm ann, j, st, st' => fun hcd h => by
      simp only [hasCD] at hcd
      simp only [visitNode] at h
      exact visitOpt_classdef ann j _ _ hcd h
  | Node.keywordNode kw v, j, st, st' => fun hcd h => by
      simp only [hasCD] at hcd
      simp only [visitNode] at h
      exact visitNode_classdef v j _ _ hcd h
  | Node.aliasNode a b, j, st, st' => fun hcd h => by
      simp only [hasCD] at hcd
      exact Bool.noConfusion hcd

theorem visitList_classdef : ∀ (l : NodeList) (j : Nat) (st st' : LinterState),
    hasCDList l j = true → visitList l st = Except.ok st' → CDMarked j st'
  | NodeList.nil, j, st, st' => fun hcd h => by
      simp only [hasCDList] at hcd
      exact Bool.noConfusion hcd
  | NodeList.cons n t, j, st, st' => fun hcd h => by
      simp only [hasCDList, Bool.or_eq_true] at hcd
      simp only [visitList] at h
      rw [exbind_ok_iff] at h
      obtain ⟨s1, h1, h⟩ := h
      rcases hcd with hn | ht
      · exact cdMarked_mono (visitList_progress t _ _ h)
          (visitNode_classdef n j _ _ hn h1)
      · exact visitList_classdef t j _ _ ht h

theorem visitOpt_classdef : ∀ (o : NodeOpt) (j : Nat) (st st' : LinterState),
    hasCDOpt o j = true → visitOpt o st = Except.ok st' → CDMarked j st'
  | NodeOpt.none, j, st, st' => fun hcd h => by
      simp only [hasCDOpt] at hcd
      exact Bool.noConfusion hcd
  | NodeOpt.some n, j, st, st' => fun hcd h => by
      simp only [hasCDOpt] at hcd
      simp only [visitOpt] at h
      exact visitNode_classdef n j _ _ hcd h
end

/-- C1: the claim says `lint_code` never raises to its caller.  It does: on
the program `@export / def f(a: int): / b = _x + _x` the linter produces two
identical S2 messages; both fail CONTRACTING_PATTERN (S2 uses `"Line {} : "`),
so both become position-less records, and `is_duplicate_error` then
subscripts `error["line"]` on a record with no `line` key — the KeyError
propagates out of `lint_code` (only LintingException is caught there).  The
pyflakes record list is empty here; its presence would not prevent the
KeyError, which arises when the two identical contracting records meet. -/
theorem lintCode_keyerror_on_duplicate_positionless :
    lintCodeModel [] (Except.ok pUnderscore) = Except.error (PyErr.keyError "line") := by
  rfl

/-- C2: on a tree with no function definitions (and likewise with only
argument-less functions), `_final_checks` reads the loop variable `lineno`
after iterating the empty `visited_args` set and raises NameError instead
of emitting the single S13 violation the claim requires; at the `lint_code`
boundary the input is answered with one message-only internal-failure
record, not an S13 record. -/
theorem finalChecks_nameError_on_no_args :
    linterCheck pEmpty = Except.error (PyErr.nameError "lineno") ∧
    linterCheck pNoArgFn = Except.error (PyErr.nameError "lineno") ∧
    lintCodeModel [] (Except.ok pEmpty) =
      Except.ok [{ message := pyErrStr (PyErr.nameError "lineno") }] := by
  exact ⟨rfl, rfl, rfl⟩

/-- C3: an exported function definition carrying a return annotation passes
the check with no violations at all: the return branch of
`visit_FunctionDef` re-reads the last argument's annotation into
`arg_types` instead of recording the return annotation, and
`return_annotation` only ever receives None entries, so S18 can never
fire.  The program here is `@export / def f(a: int) -> int: / pass`. -/
theorem return_annotation_never_flagged :
    linterCheck pRetAnn = Except.ok Option.none := by
  rfl

/-- C4 counterexample: a simple import placed directly in a function body
(`def g(): import x`) IS flagged S3 at the function's line — the claim says
function-top-level imports yield no S3 — while an import nested inside a
module-level conditional body (`if True: import x`) yields no S3 at all —
the claim says it is flagged at the containing block's line. -/
theorem s3_sites_counterexample :
    linterCheck pFnImport = Except.ok (Option.some [msgS3 4]) ∧
    linterCheck pIfImport = Except.ok Option.none := by
  exact ⟨rfl, rfl⟩

/-- C5 counterexample: a call whose callee is the name `float`
(`b = float(a)` inside an exported function) is flagged S14 at its line —
`visit_Call` applies no `float` exemption — contradicting the claim that
`float` is never rejected as a call's callee. -/
theorem float_call_flagged_s14 :
    linterCheck pFloatCall = Except.ok (Option.some [msgS14 3]) := by
  rfl

/-- C6 counterexample: `x, y = Hash(), Variable()` — tuple-unpacking
targets with the right-hand side itself a tuple of ORM constructor calls —
produces no S12 violation (indeed no violation at all): the ORM branch of
`visit_Assign` only runs when the RHS is a Call node, so the
`isinstance(node.value, ast.Tuple)` disjunct is unreachable. -/
theorem tuple_rhs_orm_assign_unflagged :
    linterCheck pTupleRhs = Except.ok Option.none := by
  rfl

/-- C7 counterexample: the S2 message is built with `"Line {} : "` — a
space before the colon — so CONTRACTING_PATTERN (`Line (\d+):`) fails on
it and `parse_contracting_line` passes this engine-produced message
through as a record with no line/col fields, contradicting both the
claimed universal wire shape and the claim that no engine message is
passed through position-less. -/
theorem s2_message_parses_positionless :
    parseContractingLine (msgS2 3 "_x") =
      { message := msgS2 3 "_x", line := Option.none, col := Option.none } := by
  rfl

theorem exbind_ok {α β : Type} (a : α) (f : α → Except PyErr β) :
    (Except.ok a : Except PyErr α) >>= f = f a := rfl

theorem nestIfs_noop : ∀ (n : Nat) (st : LinterState),
    visitNode (nestIfs n) st = Except.ok st
  | 0, st => by
      simp [nestIfs, visitNode, illegalCheck, isIllegalAstType]
  | n + 1, st => by
      simp only [nestIfs, visitNode, illegalCheck, isIllegalAstType,
        Bool.false_eq_true, if_false]
      rw [exbind_ok]
      simp only [visitList]
      rw [nestIfs_noop n st, exbind_ok, exbind_ok]

theorem nestIfs_depth : ∀ (n : Nat), nodeDepth (nestIfs n) = n + 1
  | 0 => rfl
  | n + 1 => by
      simp only [nestIfs, nodeDepth, nodeListDepth, nodeOptDepth, nestIfs_depth n]
      omega

theorem deepProgram_depth (n : Nat) : nodeDepth (deepProgram n) = max 4 (n + 2) := by
  simp only [deepProgram, nl, nodeDepth, nodeListDepth, nodeOptDepth,
    exportFnNode, nestIfs_depth n]
  omega

theorem deepProgram_check (n : Nat) :
    linterCheck (deepProgram n) = Except.ok Option.none := by
  have hA : visitNode exportFnNode {} = Except.ok
      ⟨[], true, true, false, [], [("a", 2)], [(Option.some "int", 2)],
        [(Option.none, 2)]⟩ := by rfl
  simp only [linterCheck, deepProgram, nl]
  generalize hE : exportFnNode = eF at hA ⊢
  simp only [visitNode, illegalCheck, isIllegalAstType, Bool.false_eq_true,
    if_false, visitList]
  rw [hA, exbind_ok]
  rw [nestIfs_noop n _, exbind_ok, exbind_ok]
  rfl

/-- C8 counterexample: an input whose nesting depth exceeds
RECURSION_LIMIT = 1024 (a 1030-deep conditional nest after the exported
function) is traversed to completion and accepted with an empty result —
no structural rejection record of any kind is produced.  The constant
RECURSION_LIMIT is declared in linter.py but never consulted. -/
theorem deep_input_accepted_beyond_limit :
    RECURSION_LIMIT < nodeDepth (deepProgram 1030) ∧
    linterCheck (deepProgram 1030) = Except.ok Option.none := by
  constructor
  · rw [deepProgram_depth]
    simp [RECURSION_LIMIT]
  · exact deepProgram_check 1030

/-- C10: every class definition node (at line j) reachable by the
traversal yields, when the check completes normally, a result list
containing both the S6 message and the S1 message at that line: the
ClassDef handler appends S6 and then hands the same node to
`generic_visit`, which classifies ClassDef against ILLEGAL_AST_TYPES a
second time and appends S1. -/
theorem classdef_yields_s6_and_s1 (t : Node) (j : Nat) (r : Option (List String))
    (hcd : hasCD t j = true) (hr : linterCheck t = Except.ok r) :
    ∃ vs, r = Option.some vs ∧ msgS6 j ∈ vs ∧ msgS1 j ∈ vs := by
  unfold linterCheck at hr
  rw [exbind_ok_iff] at hr
  obtain ⟨st1, hv, hr⟩ := hr
  rw [exbind_ok_iff] at hr
  obtain ⟨st2, hf, hr⟩ := hr
  simp only [pure, Except.pure, Except.ok.injEq] at hr
  subst hr
  have hm : CDMarked j st2 :=
    cdMarked_mono (finalChecks_progress _ _ hf) (visitNode_classdef t j _ _ hcd hv)
  refine ⟨st2.violations, ?_, hm.1, hm.2.1⟩
  rw [hm.2.2]
  simp

/-- Witness for C10 at the concrete program `@export / def f(a: int): pass /
class A: pass`. -/
theorem classdef_yields_s6_and_s1_witness :
    ∃ vs, (Option.some [msgS6 4, msgS1 4] : Option (List String)) = Option.some vs ∧
      msgS6 4 ∈ vs ∧ msgS1 4 ∈ vs :=
  classdef_yields_s6_and_s1 pClassDef 4 (Option.some [msgS6 4, msgS1 4])
    (by decide) (by rfl)

theorem noNestedImports_mem (k : Nat) : ∀ (l : NodeList) (st : LinterState),
    hasDirectImport l = true → msgS3 k ∈ (noNestedImports k l st).violations
  | NodeList.nil, st => fun hd => by
      simp only [hasDirectImport] at hd
      exact Bool.noConfusion hd
  | NodeList.cons n t, st => fun hd => by
      cases n <;> simp only [hasDirectImport, noNestedImports] at hd ⊢ <;>
        first
          | exact progress_mem (noNestedImports_progress k t _) (flag_mem _ _)
          | exact noNestedImports_mem k t _ hd

/-- C4 amended: `no_nested_imports` is invoked only from `visit_FunctionDef`
on the function's direct statement list, so S3 is emitted — at the
function's line — exactly when an import statement appears directly in a
function body; imports at module top level or nested inside
conditional/loop bodies are never scanned and produce no S3 (see the
counterexample for the concrete negative cases). -/
theorem s3_flags_direct_function_body_imports (k : Nat) (nm : String)
    (args body decs : NodeList) (ret : NodeOpt) (st st' : LinterState)
    (hbody : hasDirectImport body = true)
    (h : visitNode (Node.functionDef k nm args body decs ret) st = Except.ok st') :
    msgS3 k ∈ st'.violations := by
  simp only [visitNode] at h
  rw [exbind_ok_iff] at h
  obtain ⟨st5, h5, h⟩ := h
  rw [exbind_ok_iff] at h
  obtain ⟨st6, h6, h⟩ := h
  rw [exbind_ok_iff] at h
  obtain ⟨st8, h8, h⟩ := h
  rw [exbind_ok_iff] at h
  obtain ⟨st9, h9, h⟩ := h
  rw [exbind_ok_iff] at h
  obtain ⟨st10, h10, h⟩ := h
  refine progress_mem ?_ (noNestedImports_mem k body st hbody)
  refine progress_trans (closuresCheck_progress k body _) ?_
  refine progress_trans (multiDecoratorCheck_progress k decs _) ?_
  refine progress_trans (decoratorsCheck_progress k decs _ false) ?_
  refine progress_trans (processArgs_progress k args _ _ _ h5) ?_
  refine progress_trans (returnBranch_progress k _ args ret _ _ h6) ?_
  refine progress_trans
    (illegalCheck_progress (Node.functionDef k nm args body decs ret) _) ?_
  refine progress_trans (visitList_progress args _ _ h8) ?_
  refine progress_trans (visitList_progress body _ _ h9) ?_
  refine progress_trans (visitList_progress decs _ _ h10) ?_
  exact visitOpt_progress ret _ _ h

/-- Witness for the C4 theorem at `def g(): import x` (line 4), visited
from a fresh state. -/
theorem s3_flags_direct_function_body_imports_witness :
    msgS3 4 ∈ (⟨[msgS3 4], false, false, false, [], [], [], []⟩ : LinterState).violations :=
  s3_flags_direct_function_body_imports 4 "g" NodeList.nil
    (nl [Node.importStmt 5 (nl [Node.aliasNode "x" Option.none])])
    NodeList.nil NodeOpt.none {} _ (by rfl) (by rfl)

/-- C5 amended: the `float` exemption lives only in `visit_Name` — a bare
reference to the name `float` adds nothing to the state — while
`visit_Call` flags any callee whose id is in ILLEGAL_BUILTINS with no
exemption, so every call with `float` as its callee is flagged S14 at the
call's line. -/
theorem float_exempt_only_as_bare_name :
    (∀ (k k2 : Nat) (args kws : NodeList) (st st' : LinterState),
        visitNode (Node.callExpr k (Node.nameExpr k2 "float") args kws) st =
          Except.ok st' →
        msgS14 k ∈ st'.violations) ∧
    (∀ (k : Nat) (st : LinterState),
        visitNode (Node.nameExpr k "float") st = Except.ok st) := by
  constructor
  · intro k k2 args kws st st' h
    simp only [visitNode] at h
    rw [exbind_ok_iff] at h
    obtain ⟨s2, h2, h⟩ := h
    rw [exbind_ok_iff] at h
    obtain ⟨s3, h3, h⟩ := h
    have hm : msgS14 k ∈ (visitCallLeaf k (Node.nameExpr k2 "float") st).violations := by
      simp only [visitCallLeaf]
      rw [if_pos (by rfl)]
      exact flag_mem _ _
    have hp2 : Progress
        (illegalCheck (Node.callExpr k (Node.nameExpr k2 "float") args kws)
          (visitCallLeaf k (Node.nameExpr k2 "float") st)) s2 := by
      injection h2 with hx
      rw [← hx]
      exact progress_trans (visitNameLeaf_progress _ _ _) (illegalCheck_progress _ _)
    refine progress_mem ?_ hm
    refine progress_trans
      (illegalCheck_progress (Node.callExpr k (Node.nameExpr k2 "float") args kws) _) ?_
    refine progress_trans hp2 ?_
    refine progress_trans (visitList_progress args _ _ h3) ?_
    exact visitList_progress kws _ _ h
  · intro k st
    have e1 : underscoredName "float" = false := rfl
    have e2 : ("float" == "rt") = false := rfl
    have e3 : (ILLEGAL_BUILTINS.contains "float" && ("float" != "float")) = false := rfl
    simp only [visitNode, visitNameLeaf, notSystemVariable, illegalCheck,
      isIllegalAstType, e1, e2, e3, Bool.false_eq_true, if_false]

/-- Witness for the C5 theorem at the call `float(a)` on line 3, visited
from a fresh state. -/
theorem float_exempt_only_as_bare_name_witness :
    msgS14 3 ∈ (⟨[msgS14 3], false, false, false, [], [], [], []⟩ : LinterState).violations :=
  float_exempt_only_as_bare_name.1 3 3 (nl [Node.nameExpr 3 "a"]) NodeList.nil
    {} _ (by rfl)

/-- C6 amended: the ORM branch of `visit_Assign` runs only when the
assignment's right-hand side is a Call whose callee is a plain Name in
ORM_CLASS_NAMES; in that case a tuple among the targets is flagged S12 at
the assignment's line.  (The `isinstance(node.value, ast.Tuple)` disjunct
is unreachable there, so a tuple right-hand side alone is never flagged —
see the counterexample.) -/
theorem s12_requires_direct_orm_call (k k2 : Nat) (targets args kws : NodeList)
    (func : Node) (fid : String) (st st' : LinterState)
    (hid : getIdOpt func = Option.some fid)
    (horm : ORM_CLASS_NAMES.contains fid = true)
    (htup : nlAnyTuple targets = true)
    (h : visitNode (Node.assign k targets (Node.callExpr k2 func args kws)) st =
      Except.ok st') :
    msgS12 k ∈ st'.violations := by
  simp only [visitNode] at h
  rw [exbind_ok_iff] at h
  obtain ⟨st1, h1, h⟩ := h
  rw [exbind_ok_iff] at h
  obtain ⟨st3, h3, h⟩ := h
  have hm : msgS12 k ∈ st1.violations := by
    cases func <;> simp only [getIdOpt, Option.some.injEq] at hid <;>
      try exact absurd hid (by simp)
    case nameExpr k3 id =>
      subst hid
      simp only [assignLogic, getIdOpt] at h1
      rw [if_pos horm] at h1
      rw [exbind_ok_iff] at h1
      obtain ⟨b, _, h1⟩ := h1
      cases targets with
      | nil =>
          simp only [nlAnyTuple] at htup
          exact Bool.noConfusion htup
      | cons t0 ts =>
          cases t0 <;> simp only [pure, Except.pure, Except.ok.injEq] at h1 <;>
            subst h1 <;> simp [flag, htup, Bool.true_or]
  refine progress_mem ?_ hm
  refine progress_trans
    (illegalCheck_progress (Node.assign k targets (Node.callExpr k2 func args kws)) _) ?_
  refine progress_trans (visitList_progress targets _ _ h3) ?_
  rw [exbind_ok_iff] at h
  obtain ⟨v2, hv2, h⟩ := h
  rw [exbind_ok_iff] at h
  obtain ⟨v3, hv3, h⟩ := h
  exact progress_trans (visitCallLeaf_progress k2 func st3)
    (progress_trans (illegalCheck_progress (Node.callExpr k2 func args kws) _)
      (progress_trans (visitNode_progress func _ _ hv2)
        (progress_trans (visitList_progress args _ _ hv3)
          (visitList_progress kws _ _ h))))

/-- Witness for the C6 theorem at `x, y = Hash()` on line 4, visited from
a fresh state. -/
theorem s12_requires_direct_orm_call_witness :
    msgS12 4 ∈ (⟨[msgS12 4], false, false, false, [], [], [], []⟩ : LinterState).violations :=
  s12_requires_direct_orm_call 4 4
    (nl [Node.tupleExpr 4 (nl [Node.nameExpr 4 "x", Node.nameExpr 4 "y"])])
    NodeList.nil NodeList.nil (Node.nameExpr 4 "Hash") "Hash" {} _
    (by rfl) (by rfl) (by rfl) (by rfl)

/-- C8 amended: the linter imposes no depth bound at all — RECURSION_LIMIT
is declared and never consulted — and for every nesting depth n the
n-deep conditional-nest program is traversed to completion and accepted.
(Actual stack behavior of the host interpreter is outside this code.) -/
theorem depth_unbounded_traversal_succeeds (n : Nat) :
    linterCheck (deepProgram n) = Except.ok Option.none :=
  deepProgram_check n

theorem annSpecNode_visit (a : AnnSpec) (ha : annSpecOk a) :
    ∀ st : LinterState, visitNode (annSpecNode a) st = Except.ok st := by
  cases a with
  | simple s =>
      intro st
      simp only [annSpecOk] at ha
      fin_cases ha <;> rfl
  | dotted b c =>
      intro st
      simp only [annSpecOk] at ha
      fin_cases ha <;> rfl

theorem annSpecNode_spelling (a : AnnSpec) :
    annSpelling (NodeOpt.some (annSpecNode a)) = Except.ok (annSpecStr a) := by
  cases a <;> rfl

theorem annSpecStr_allowed (a : AnnSpec) (ha : annSpecOk a) :
    ALLOWED_ANNOTATION_TYPES.contains (annSpecStr a) = true := by
  cases a <;> simp only [annSpecOk] at ha <;> fin_cases ha <;> rfl

theorem minimal_args_visit : ∀ (l : List (String × AnnSpec)),
    (∀ p ∈ l, annSpecOk p.2) → ∀ st : LinterState,
    visitList (nl (l.map mkMinArg)) st = Except.ok st
  | [], _ => fun st => rfl
  | p :: t, h => fun st => by
      simp only [List.map, nl, visitList, mkMinArg, visitNode, illegalCheck,
        isIllegalAstType, Bool.false_eq_true, if_false, visitOpt]
      rw [annSpecNode_visit p.2 (h p (by simp)) st, exbind_ok]
      exact minimal_args_visit t (fun q hq => h q (by simp [hq])) st

theorem setAdd_mem_cases {α : Type} [BEq α] {l : List α} {x e : α}
    (he : e ∈ setAdd l x) : e ∈ l ∨ e = x := by
  unfold setAdd at he
  split at he
  · exact Or.inl he
  · rcases List.mem_append.1 he with h | h
    · exact Or.inl h
    · exact Or.inr (List.mem_singleton.1 h)

theorem processArgs_minimal : ∀ (l : List (String × AnnSpec)) (st : LinterState),
    (∀ p ∈ l, annSpecOk p.2) →
    ∃ st', processArgs 2 true (nl (l.map mkMinArg)) st = Except.ok st' ∧
      st'.violations = st.violations ∧ st'.isSuccess = st.isSuccess ∧
      st'.isOneExport = st.isOneExport ∧ st'.ormNames = st.ormNames ∧
      st'.retAnns = st.retAnns ∧
      (∀ e ∈ st'.argTypes, e ∈ st.argTypes ∨ annEntryOk e)
  | [], st => fun _ =>
      ⟨st, rfl, rfl, rfl, rfl, rfl, rfl, fun e he => Or.inl he⟩
  | p :: t, st => fun h => by
      simp only [List.map, nl, processArgs, mkMinArg, if_true]
      rw [annSpecNode_spelling p.2, exbind_ok]
      simp only [pure, Except.pure, Bind.bind, Except.bind]
      obtain ⟨st', hrec, hv, hs, he2, ho, hr, hat⟩ :=
        processArgs_minimal t
          { st with visitedArgs := setAdd st.visitedArgs (p.1, 2),
                    argTypes := setAdd st.argTypes (Option.some (annSpecStr p.2), 2) }
          (fun q hq => h q (by simp [hq]))
      refine ⟨st', hrec, hv, hs, he2, ho, hr, fun e he' => ?_⟩
      rcases hat e he' with hin | hok2
      · rcases setAdd_mem_cases hin with hin2 | rfl
        · exact Or.inl hin2
        · exact Or.inr ⟨annSpecStr p.2, rfl, annSpecStr_allowed p.2 (h p (by simp))⟩
      · exact Or.inr hok2

theorem s15Fold_noop : ∀ (l : List (String × Nat)) (st : LinterState),
    st.ormNames = [] → s15Fold l st = st
  | [], _ => fun _ => rfl
  | (nm, ln) :: t, st => fun ho => by
      simp only [s15Fold, ho]
      rw [if_neg (by simp)]
      exact s15Fold_noop t st ho

theorem annTypesFold_noop : ∀ (l : List (Option String × Nat)) (st : LinterState),
    (∀ e ∈ l, annEntryOk e) → annTypesFold l st = st
  | [], _ => fun _ => rfl
  | (t0, ln) :: r, st => fun h => by
      obtain ⟨s0, he, hc⟩ := h (t0, ln) (by simp)
      simp only at he
      subst he
      simp only [annTypesFold, annTypesCheck, hc, Bool.not_true, Bool.false_eq_true,
        if_false]
      exact annTypesFold_noop r st (fun e he2 => h e (by simp [he2]))

/-- C9: the minimal accepted input — a module holding exactly one function
definition decorated `export`, every argument annotated with a whitelisted
spelling (plain or dotted), a `pass` body and no return annotation —
passes the check with the success sentinel (no violations), for every
function name and every such argument list. -/
theorem minimal_export_program_accepted (fname : String)
    (args : List (String × AnnSpec)) (hok : ∀ p ∈ args, annSpecOk p.2) :
    linterCheck (minimalProgram fname args) = Except.ok Option.none := by
  obtain ⟨st5, hpa, hv, hs, he, ho, hr, hat⟩ :=
    processArgs_minimal args (⟨[], true, true, false, [], [], [], []⟩ : LinterState) hok
  have epre : decoratorsCheck 2 (nl [Node.nameExpr 1 "export"])
      (multiDecoratorCheck 2 (nl [Node.nameExpr 1 "export"])
        (closuresCheck 2 (nl [Node.passStmt 3])
          (noNestedImports 2 (nl [Node.passStmt 3]) {}))) false
      = ((⟨[], true, true, false, [], [], [], []⟩ : LinterState), true) := rfl
  simp only [nl] at epre
  simp only [linterCheck, minimalProgram, nl, visitNode, visitList, visitOpt,
    illegalCheck, isIllegalAstType, Bool.false_eq_true, if_false]
  rw [epre]
  dsimp only
  rw [hpa, exbind_ok]
  simp only [returnBranch, if_true]
  rw [exbind_ok]
  rw [minimal_args_visit args hok _, exbind_ok]
  have ee1 : underscoredName "export" = false := rfl
  have ee2 : ("export" == "rt") = false := rfl
  have ee3 : (ILLEGAL_BUILTINS.contains "export" && ("export" != "float")) = false := rfl
  simp only [visitNode, visitList, visitNameLeaf, notSystemVariable, illegalCheck,
    isIllegalAstType, ee1, ee2, ee3, Bool.false_eq_true, if_false, exbind_ok]
  -- final checks on the resulting state
  simp only [finalChecks, Bind.bind, Except.bind, pure, Except.pure]
  rw [s15Fold_noop _ _ (by exact ho)]
  rw [if_neg (by simp [he])]
  rw [annTypesFold_noop _ _ ?hall]
  case hall =>
    intro e he2
    rcases hat e he2 with h0 | h0
    · simp at h0
    · exact h0
  rw [show (({ st5 with retAnns := setAdd st5.retAnns (Option.none, 2) } : LinterState).retAnns)
        = [(Option.none, 2)] from by
      rw [show ({ st5 with retAnns := setAdd st5.retAnns (Option.none, 2) } : LinterState).retAnns
            = setAdd st5.retAnns (Option.none, 2) from rfl, hr]
      rfl]
  simp only [retAnnsFold, checkReturnTypes]
  rw [show ({ st5 with retAnns := setAdd st5.retAnns (Option.none, 2) } : LinterState).isSuccess = true from hs]
  rfl

/-- Witness for C9 at a two-argument exported function using one plain and
one dotted whitelisted spelling. -/
theorem minimal_export_program_accepted_witness :
    (∀ p ∈ [("amount", AnnSpec.simple "int"),
            ("until", AnnSpec.dotted "datetime" "datetime")], annSpecOk p.2) ∧
    linterCheck (minimalProgram "transfer"
      [("amount", AnnSpec.simple "int"),
       ("until", AnnSpec.dotted "datetime" "datetime")]) = Except.ok Option.none :=
  ⟨by decide, minimal_export_program_accepted "transfer" _ (by decide)⟩

theorem digitChar_isDigit (d : Nat) (h : d < 10) : (digitChar d).isDigit = true := by
  interval_cases d <;> decide

theorem digitChar_toNat (d : Nat) (h : d < 10) : (digitChar d).toNat = 48 + d := by
  interval_cases d <;> decide

theorem natReprAux_digits : ∀ (fuel n : Nat), ∀ c ∈ natReprAux fuel n,
    c.isDigit = true
  | 0, n => by simp [natReprAux]
  | fuel + 1, n => by
      intro c hc
      by_cases hn : n < 10
      · simp only [natReprAux] at hc
        rw [if_pos hn] at hc
        simp only [List.mem_singleton] at hc
        subst hc
        exact digitChar_isDigit n hn
      · simp only [natReprAux] at hc
        rw [if_neg hn] at hc
        rcases List.mem_append.1 hc with h1 | h1
        · exact natReprAux_digits fuel (n / 10) c h1
        · simp only [List.mem_singleton] at h1
          subst h1
          exact digitChar_isDigit (n % 10) (Nat.mod_lt _ (by omega))

theorem natReprAux_ne_nil (fuel n : Nat) (hf : 0 < fuel) :
    natReprAux fuel n ≠ [] := by
  cases fuel with
  | zero => omega
  | succ f =>
      simp only [natReprAux]
      split
      · simp
      · simp

theorem digitsToNat_append (l : List Char) (c : Char) :
    digitsToNat (l ++ [c]) = digitsToNat l * 10 + (c.toNat - 48) := by
  simp [digitsToNat, List.foldl_append]

theorem natReprAux_val : ∀ (fuel n : Nat), n < 10 ^ fuel →
    digitsToNat (natReprAux fuel n) = n
  | 0, n => fun h => by
      simp only [pow_zero, Nat.lt_one_iff] at h
      subst h
      rfl
  | fuel + 1, n => fun h => by
      by_cases hn : n < 10
      · simp only [natReprAux]
        rw [if_pos hn]
        simp only [digitsToNat, List.foldl_cons, List.foldl_nil]
        rw [digitChar_toNat n hn]
        omega
      · simp only [natReprAux]
        rw [if_neg hn]
        rw [digitsToNat_append]
        have hlt : n / 10 < 10 ^ fuel := by
          rw [Nat.div_lt_iff_lt_mul (by norm_num : (0 : Nat) < 10)]
          calc n < 10 ^ (fuel + 1) := h
            _ = 10 ^ fuel * 10 := by rw [pow_succ]
        rw [natReprAux_val fuel (n / 10) hlt]
        rw [digitChar_toNat (n % 10) (Nat.mod_lt _ (by omega))]
        omega

theorem nat_lt_ten_pow_succ (n : Nat) : n < 10 ^ (n + 1) :=
  lt_of_lt_of_le (Nat.lt_pow_self (by norm_num) n)
    (Nat.pow_le_pow_right (by norm_num) (Nat.le_succ n))

theorem takeWhile_all : ∀ (p : Char → Bool) (l : List Char),
    (∀ c ∈ l, p c = true) → List.takeWhile p l = l
  | _, [] => fun _ => rfl
  | p, c :: t => fun h => by
      have hc : p c = true := h c (by simp)
      simp only [List.takeWhile, hc]
      rw [takeWhile_all p t (fun d hd => h d (by simp [hd]))]

theorem takeWhile_append_of : ∀ (p : Char → Bool) (l r : List Char),
    (∀ c ∈ l, p c = true) → (∀ c, r.head? = Option.some c → p c = false) →
    List.takeWhile p (l ++ r) = l ∧ List.dropWhile p (l ++ r) = r
  | p, [], r => fun _ hr => by
      cases r with
      | nil => simp
      | cons c rs =>
          have hc := hr c rfl
          simp [List.takeWhile, List.dropWhile, hc]
  | p, c :: l, r => fun hl hr => by
      have hc : p c = true := hl c (by simp)
      have ih := takeWhile_append_of p l r (fun d hd => hl d (by simp [hd])) hr
      simp only [List.cons_append, List.takeWhile, List.dropWhile, List.append_eq, hc]
      exact ⟨by rw [ih.1], ih.2⟩

theorem matchContracting_cons (rest : List Char) :
    matchContracting (String.mk ('L' :: 'i' :: 'n' :: 'e' :: ' ' :: rest)) =
      (if (rest.takeWhile Char.isDigit).isEmpty then Option.none
       else
         match rest.dropWhile Char.isDigit with
         | ':' :: r2 =>
             if (((r2.dropWhile isPySpace).takeWhile (fun c => c != '\n')).isEmpty)
             then Option.none
             else Option.some (digitsToNat (rest.takeWhile Char.isDigit),
                    String.mk ((r2.dropWhile isPySpace).takeWhile (fun c => c != '\n')))
         | _ => Option.none) := rfl

theorem matchContracting_format (n : Nat) (desc : String) (hd : goodDesc desc = true) :
    matchContracting ("Line " ++ natRepr n ++ ": " ++ desc) = Option.some (n, desc) := by
  have htl : ("Line " ++ natRepr n ++ ": " ++ desc).toList
      = 'L' :: 'i' :: 'n' :: 'e' :: ' ' ::
        (natReprAux (n + 1) n ++ (':' :: ' ' :: desc.toList)) := by
    show ("Line " ++ natRepr n ++ ": " ++ desc).data = _
    simp only [String.data_append, List.append_assoc]
    rfl
  have hs : ("Line " ++ natRepr n ++ ": " ++ desc)
      = String.mk ('L' :: 'i' :: 'n' :: 'e' :: ' ' ::
          (natReprAux (n + 1) n ++ (':' :: ' ' :: desc.toList))) := by
    rw [← htl]
    rfl
  obtain ⟨htw, hdw⟩ := takeWhile_append_of Char.isDigit (natReprAux (n + 1) n)
      (':' :: ' ' :: desc.toList) (natReprAux_digits (n + 1) n)
      (by intro c hc; rw [List.head?_cons] at hc; injection hc with hc; subst hc; decide)
  obtain ⟨a, t, ha⟩ := List.exists_cons_of_ne_nil (natReprAux_ne_nil (n + 1) n (Nat.succ_pos n))
  cases hdl : desc.toList with
  | nil =>
      exfalso
      simp only [goodDesc, hdl] at hd
      exact Bool.false_ne_true hd
  | cons c cs =>
      have hgd := hd
      simp only [goodDesc, hdl, Bool.and_eq_true] at hgd
      obtain ⟨hsp, hnl⟩ := hgd
      have hspc : isPySpace c = false := by
        cases h : isPySpace c
        · rfl
        · rw [h] at hsp; exact absurd hsp (by decide)
      have hnot : ¬ (isPySpace c = true) := by
        rw [hspc]
        exact Bool.false_ne_true
      have e2 : desc.toList.dropWhile isPySpace = desc.toList := by
        rw [hdl, List.dropWhile_cons, if_neg hnot]
      have hnl2 : ∀ x ∈ desc.toList, (x != '\n') = true := by
        rw [hdl]
        exact fun x hx => (List.all_eq_true.1 hnl) x hx
      have e3 : desc.toList.takeWhile (fun c2 => c2 != '\n') = desc.toList :=
        takeWhile_all _ _ hnl2
      have e4 : desc.toList.isEmpty = false := by
        rw [hdl]
        rfl
      rw [hs, matchContracting_cons, htw, hdw, ha]
      show (if ((((' ' :: desc.toList).dropWhile isPySpace).takeWhile
              (fun c => c != '\n')).isEmpty = true)
            then Option.none
            else Option.some (digitsToNat (a :: t),
                   String.mk (((' ' :: desc.toList).dropWhile isPySpace).takeWhile
                     (fun c => c != '\n'))))
          = Option.some (n, desc)
      rw [List.dropWhile_cons, if_pos (by decide : isPySpace ' ' = true)]
      rw [e2, e3, e4, if_neg Bool.false_ne_true]
      rw [← ha, natReprAux_val (n + 1) n (nat_lt_ten_pow_succ n)]
      rfl

theorem matchContracting_s2 (n : Nat) (v : String) :
    matchContracting (msgS2 n v) = Option.none := by
  have htl : (msgS2 n v).toList
      = 'L' :: 'i' :: 'n' :: 'e' :: ' ' ::
        (natReprAux (n + 1) n ++
          (' ' :: ':' :: ' ' :: ((trig 1).toList ++ (' ' :: ':' :: ' ' :: v.toList)))) := by
    show (msgS2 n v).data = _
    simp only [msgS2, String.data_append, List.append_assoc]
    rfl
  have hs : msgS2 n v
      = String.mk ('L' :: 'i' :: 'n' :: 'e' :: ' ' ::
          (natReprAux (n + 1) n ++
            (' ' :: ':' :: ' ' :: ((trig 1).toList ++ (' ' :: ':' :: ' ' :: v.toList))))) := by
    rw [← htl]
    rfl
  obtain ⟨htw, hdw⟩ := takeWhile_append_of Char.isDigit (natReprAux (n + 1) n)
      (' ' :: ':' :: ' ' :: ((trig 1).toList ++ (' ' :: ':' :: ' ' :: v.toList)))
      (natReprAux_digits (n + 1) n)
      (by intro c hc; rw [List.head?_cons] at hc; injection hc with hc; subst hc; decide)
  obtain ⟨a, t, ha⟩ := List.exists_cons_of_ne_nil (natReprAux_ne_nil (n + 1) n (Nat.succ_pos n))
  rw [hs, matchContracting_cons, htw, hdw, ha]
  rfl

/-- C7: corrected parsing behaviour.  Any violation of the exact shape
`"Line \x7bn\x7d: " + description` (description non-empty, not starting with
whitespace, newline-free — every linter message with the colon format is of
this shape) is parsed by `parse_contracting_line` into a record with the
description as message and, for n > 0, zero-based line `n - 1` and column 0,
while `n = 0` yields a record with no position keys.  But the S2 messages
(like S16/S17/S18 they read `"Line \x7bn\x7d : ..."` with a space before the
colon) fail `CONTRACTING_PATTERN` and pass through whole, as position-less
records — not with the position the claim asserts. -/
theorem contracting_line_parsing_shapes :
    (∀ (n : Nat) (desc : String), goodDesc desc = true →
        parseContractingLine ("Line " ++ natRepr n ++ ": " ++ desc) =
          (if n = 0 then { message := desc }
           else { message := desc, line := Option.some ((n : Int) - 1),
                  col := Option.some 0 })) ∧
    (∀ (n : Nat) (v : String),
        parseContractingLine (msgS2 n v) = { message := msgS2 n v }) := by
  constructor
  · intro n desc hd
    simp only [parseContractingLine]
    rw [matchContracting_format n desc hd]
    by_cases hn : n = 0
    · subst hn
      simp
    · simp [hn]
  · intro n v
    simp only [parseContractingLine]
    rw [matchContracting_s2 n v]

/-- Witness for C7 at n = 3 with the S14 trigger text as description, and at
the S2 message for line 3, variable `_x`. -/
theorem contracting_line_parsing_shapes_witness :
    (goodDesc (trig 13) = true ∧
      parseContractingLine ("Line " ++ natRepr 3 ++ ": " ++ trig 13) =
        (if (3 : Nat) = 0 then { message := trig 13 }
         else { message := trig 13, line := Option.some ((3 : Int) - 1),
                col := Option.some 0 })) ∧
    parseContractingLine (msgS2 3 "_x") = { message := msgS2 3 "_x" } :=
  ⟨⟨by decide, contracting_line_parsing_shapes.1 3 (trig 13) (by decide)⟩,
   contracting_line_parsing_shapes.2 3 "_x"⟩
